import Mathlib

/-!
# Verification of the Db2 dialect layer (query generator and query runner)

Shallow embedding of `src/lib/dialects/db2/query.js` (the query runner: execution
adapter, result normalizer, error translator) and `src/unnamed/part_000`
(`Db2QueryGenerator`, the SQL builders).  JavaScript values are modelled by the
`JsVal` type below (with JavaScript truthiness), JavaScript objects by ordered
association lists, fallible JavaScript code by `Except` (a thrown `TypeError`
is an `Except.error`), and the per-generator mutable counter by explicit state
passing.  String scanning primitives (`String.prototype.search` with a plain
pattern, first-occurrence `String.prototype.replace`, `split`, `trim`) are
implemented on `List Char` so that every definition is executable and provable.
-/

namespace Db2

/-! ## JavaScript values and truthiness -/

/-- A JavaScript value as far as this layer inspects one: `undefined`, `null`,
numbers, strings and booleans. -/
inductive JsVal where
  | undefined
  | null
  | num (n : Int)
  | str (s : String)
  | bool (b : Bool)
  deriving Repr, DecidableEq

/-- JavaScript truthiness: `undefined`, `null`, `0`, `""` and `false` are falsy. -/
def JsVal.truthy : JsVal → Bool
  | .undefined => false
  | .null => false
  | .num n => n != 0
  | .str s => !s.isEmpty
  | .bool b => b

/-- `undefined` or `null` (the JavaScript "nullish" values). -/
def JsVal.isNullish : JsVal → Bool
  | .undefined => true
  | .null => true
  | _ => false

/-- A JavaScript object, as the ordered list of its own enumerable properties
(`for…in` / `_.forOwn` enumerate in insertion order for string keys). -/
abbrev JsObj := List (String × JsVal)

/-- Property read `o[k]`: `undefined` when the property is absent. -/
def jsGet (o : JsObj) (k : String) : JsVal :=
  match o.find? (fun p => p.1 = k) with
  | some p => p.2
  | none => .undefined

/-- Property read returning `none` when the property is absent
(used to model `o[k] !== undefined` tests on presence). -/
def jsGetOpt (o : JsObj) (k : String) : Option JsVal :=
  (o.find? (fun p => p.1 = k)).map (·.2)

/-- Property write `o[k] = v` (overwrites in place, else appends). -/
def jsSet (o : JsObj) (k : String) (v : JsVal) : JsObj :=
  if (o.find? (fun p => p.1 = k)).isSome then
    o.map (fun p => if p.1 = k then (p.1, v) else p)
  else
    o ++ [(k, v)]

/-- Array read `a[i]` for an `i` that may be negative (`fields[match[1] - 1]`
with index id `0` reads `fields[-1]`, which is `undefined`). -/
def jsArrayGet {α : Type} (l : List α) (i : Int) : Option α :=
  if i < 0 then none else l.get? i.toNat

/-! ## List-of-characters scanning primitives -/

/-- Does the character occur in the list?  (Models `indexOf(c) !== -1`.) -/
def hasChar (c : Char) : List Char → Bool
  | [] => false
  | x :: xs => x == c || hasChar c xs

/-- Replace the first occurrence of the character `c` by `repl`
(JavaScript `String.prototype.replace` with a string pattern replaces only
the first occurrence). -/
def replaceFirstChar (c : Char) (repl : List Char) : List Char → List Char
  | [] => []
  | x :: xs => if x == c then repl ++ xs else x :: replaceFirstChar c repl xs

/-- Split at the first occurrence of the pattern `pat`, returning the parts
before and after it (`none` when `pat` does not occur).  Models an unanchored
search for a literal pattern. -/
def splitFirstSub (pat : List Char) : List Char → Option (List Char × List Char)
  | [] => if pat.isEmpty then some ([], []) else none
  | x :: xs =>
    if pat.isPrefixOf (x :: xs) then some ([], (x :: xs).drop pat.length)
    else (splitFirstSub pat xs).map (fun p => (x :: p.1, p.2))

/-- Does `pat` occur as a contiguous substring?  Models
`String.prototype.search` with a literal pattern (`!= -1`). -/
def containsSub (pat s : List Char) : Bool :=
  (splitFirstSub pat s).isSome

/-- Strip a literal pattern from the front, returning the rest. -/
def stripPre (pat l : List Char) : Option (List Char) :=
  if pat.isPrefixOf l then some (l.drop pat.length) else none

/-- Does the text start with the pattern?  (Models `_.startsWith`.) -/
def startsWithL (p s : List Char) : Bool :=
  match p, s with
  | [], _ => true
  | _ :: _, [] => false
  | c :: cs, x :: xs => c == x && startsWithL cs xs

/-- Split at the last occurrence of `'.'` (the greedy `(.*)\.(.*)` split);
`none` when no dot occurs. -/
def splitLastDot : List Char → Option (List Char × List Char)
  | [] => none
  | c :: rest =>
    match splitLastDot rest with
    | some (p, q) => some (c :: p, q)
    | none => if c == '.' then some ([], rest) else none

def splitOnCharAux (c : Char) : List Char → List Char → List (List Char)
  | [], cur => [cur.reverse]
  | x :: xs, cur =>
    if x == c then cur.reverse :: splitOnCharAux c xs []
    else splitOnCharAux c xs (x :: cur)

/-- Split on every occurrence of a separator character, keeping empty pieces —
the semantics of JavaScript `String.prototype.split` with a one-character
separator. -/
def splitOnChar (c : Char) (l : List Char) : List (List Char) :=
  splitOnCharAux c l []

/-- The whitespace characters stripped by `String.prototype.trim` that can
occur in the data this layer handles. -/
def isJsSpace (c : Char) : Bool :=
  c == ' ' || c == '\t' || c == '\n' || c == '\r'

/-- `String.prototype.trim`. -/
def trimChars (l : List Char) : List Char :=
  ((l.dropWhile isJsSpace).reverse.dropWhile isJsSpace).reverse

/-! ## ShowIndexes normalization (`handleShowIndexesQuery`, query.js lines 424–458)

A raw `ShowIndexes` row carries the catalog columns selected by
`showIndexesQuery` (part_000 line 622): `name`, `tableName`, `keyType`
(`UNIQUERULE`), `COLNAMES` and the index type.  The JavaScript property
`type` is called `indexType` here (`type` is better avoided as a field name). -/

structure IndexRow where
  name : String
  tableName : String
  keyType : String
  indexType : String
  COLNAMES : String
  deriving Repr, DecidableEq

/-- One `{attribute, length, order, collate}` entry pushed by
`handleShowIndexesQuery`; the JavaScript property `attribute` is named
`attributeName` here (`attribute` is a Lean keyword), and the always-`undefined`
`length`/`collate` properties are omitted. -/
structure FieldEntry where
  attributeName : String
  order : String
  deriving Repr, DecidableEq

structure IndexDescriptor where
  primary : Bool
  fields : List FieldEntry
  name : String
  tableName : String
  unique : Bool
  indexType : String
  deriving Repr, DecidableEq

/-- The per-row COLNAMES parse (query.js lines 433–445):
`COLNAMES.replace('+', ' +').replace('-', ' -').split(' ')`, then for each
nonempty trimmed token push `{attribute: token minus its first '-' and first
'+', order: token has no '-' ? ASC : DESC}`.  `replace` with a string pattern
rewrites only the first occurrence of each sign. -/
def colnamesFields (s : List Char) : List FieldEntry :=
  (splitOnChar ' '
      (replaceFirstChar '-' [' ', '-'] (replaceFirstChar '+' [' ', '+'] s))).filterMap
    (fun column =>
      let columnName := trimChars column
      if columnName.isEmpty then none
      else
        let stripped := replaceFirstChar '+' [] (replaceFirstChar '-' [] columnName)
        some { attributeName := String.mk stripped
               order := if hasChar '-' column then "DESC" else "ASC" })

/-- One accumulator entry of the `_.reduce` grouping: the index name, the first
row seen under that name (whose `keyType`/`tableName`/type the final map reads)
and the fields collected so far. -/
abbrev IndexAcc := List (String × IndexRow × List FieldEntry)

/-- Append the parsed fields of one row to its (possibly fresh) group. -/
def pushIndexRow (acc : IndexAcc) (item : IndexRow) : IndexAcc :=
  let acc :=
    if acc.any (fun p => p.1 = item.name) then acc
    else acc ++ [(item.name, item, [])]
  acc.map (fun p =>
    if p.1 = item.name then (p.1, p.2.1, p.2.2 ++ colnamesFields item.COLNAMES.toList)
    else p)

/-- `handleShowIndexesQuery` (query.js lines 424–458): group rows by index
name collecting all parsed COLNAMES fields, then shape each group into an
index descriptor. -/
def handleShowIndexesQuery (rows : List IndexRow) : List IndexDescriptor :=
  (rows.foldl pushIndexRow []).map (fun p =>
    { primary := p.2.1.keyType = "P"
      fields := p.2.2
      name := p.2.1.name
      tableName := p.2.1.tableName
      unique := p.2.1.keyType = "U"
      indexType := p.2.1.indexType })

/-! ## The Db2 query generator (src/unnamed/part_000)

The generator leans on the abstract base class for identifier quoting, value
escaping and WHERE-clause rendering.  Those collaborators are outside the core
(spec §1 "Out of scope … the generic SQL-generation base class (WHERE-clause
building, identifier quoting, type-to-SQL mapping)"), so value escaping and
rendered WHERE fragments enter the embedding as parameters, and identifier
quoting is modelled by the dialect's double-quote convention. -/

/-- Generic association-list read (a JavaScript property access on an object
holding non-`JsVal` data). -/
def assocGetOpt {α : Type} (o : List (String × α)) (k : String) : Option α :=
  (o.find? (fun p => p.1 = k)).map (·.2)

/-- Generic association-list write. -/
def assocSet {α : Type} (o : List (String × α)) (k : String) (v : α) : List (String × α) :=
  if (o.find? (fun p => p.1 = k)).isSome then
    o.map (fun p => if p.1 = k then (p.1, v) else p)
  else
    o ++ [(k, v)]

/-- Modelled from the spec: the external Identifier/Value Escaper (spec §2
"quotes identifiers and literal values per dialect rules", implemented in the
abstract base class outside src/).  Db2 wraps identifiers in double quotes. -/
def quoteIdentifier (s : String) : String := "\"" ++ s ++ "\""

def quoteTable (s : String) : String := quoteIdentifier s

/-- JavaScript `a || b` on two possibly-missing strings (an empty string is
falsy, so `"" || b` yields `b`). -/
def jsOrStrOpt (a b : Option String) : Option String :=
  match a with
  | some s => if s.isEmpty then b else some s
  | none => b

/-- `attr.field || key`. -/
def jsFieldOr (f : Option String) (k : String) : String :=
  match f with
  | some s => if s.isEmpty then k else s
  | none => k

/-- One entry of `model.rawAttributes`: the raw-attribute metadata this layer
reads (spec §3 Instance/Model: "primary/auto-increment attribute name,
unique-key definitions, raw attribute field-name mapping"). -/
structure RawAttr where
  field : Option String := none
  primaryKey : Bool := false
  unique : Bool := false
  autoIncrement : Bool := false
  deriving Repr, DecidableEq

/-- An element of a declared index's `fields` array: either a plain string or
an object carrying `name` / `attribute`. -/
inductive IndexFieldRef where
  | str (s : String)
  | obj (name : Option String) (attributeName : Option String)
  deriving Repr, DecidableEq

/-- `typeof field === 'string' ? field : field.name || field.attribute`
(part_000 line 501). -/
def IndexFieldRef.fieldName : IndexFieldRef → Option String
  | .str s => some s
  | .obj n a => jsOrStrOpt n a

/-- One entry of `model._indexes`. -/
structure ModelIndex where
  unique : Bool := false
  fields : Option (List IndexFieldRef) := none
  deriving Repr, DecidableEq

/-- The slice of model metadata `upsertQuery` reads. -/
structure UpsertModel where
  rawAttributes : List (String × RawAttr)
  indexes : List ModelIndex
  deriving Repr, DecidableEq

/-- part_000 lines 485–495: collect `field || key` of every primary-key
attribute. -/
def primaryKeysAttrsOf (model : UpsertModel) : List String :=
  (model.rawAttributes.filter (fun p => p.2.primaryKey)).map (fun p => jsFieldOr p.2.field p.1)

/-- part_000 lines 485–495: collect `field || key` of every declared-unique
attribute. -/
def declaredUniqueAttrsOf (model : UpsertModel) : List String :=
  (model.rawAttributes.filter (fun p => p.2.unique)).map (fun p => jsFieldOr p.2.field p.1)

/-- part_000 lines 485–495: collect `field || key` of every identity
(auto-increment) attribute. -/
def identityAttrsOf (model : UpsertModel) : List String :=
  (model.rawAttributes.filter (fun p => p.2.autoIncrement)).map (fun p => jsFieldOr p.2.field p.1)

/-- part_000 lines 498–507: extend `uniqueAttrs` with the fields of every
unique declared index whose resolved field name is absent so far and names an
existing raw attribute. -/
def addIndexField (model : UpsertModel) (acc2 : List String) (f : IndexFieldRef) :
    List String :=
  match f.fieldName with
  | some nm =>
    if acc2.contains nm then acc2
    else if (assocGetOpt model.rawAttributes nm).isSome then acc2 ++ [nm]
    else acc2
  | none => acc2

def addIndexFields (model : UpsertModel) (acc : List String) (idx : ModelIndex) :
    List String :=
  if idx.unique then
    match idx.fields with
    | some fls => fls.foldl (addIndexField model) acc
    | none => acc
  else acc

def addUniqueIndexFields (model : UpsertModel) (init : List String) : List String :=
  model.indexes.foldl (addIndexFields model) init

/-- The full set of unique attributes `upsertQuery` joins on when no
primary-key clause is found: declared unique attributes plus unique-index
fields. -/
def upsertUniqueAttrs (model : UpsertModel) : List String :=
  addUniqueIndexFields model (declaredUniqueAttrsOf model)

/-- One disjunct of the upsert filter `where[Op.or]`. -/
abbrev Clause := JsObj

/-- part_000 lines 528–540: keep only the clauses in which every key has a
truthy value ("Exclude NULL Composite PK/UK. Partial Composite clauses should
also be excluded"). -/
def filterClauses (whereOr : List Clause) : List Clause :=
  whereOr.filter (fun c => c.all (fun kv => kv.2.truthy))

/-- part_000 lines 557–563: scan the surviving clauses for one whose first key
(`Object.keys(clause)[0]`) is a primary-key attribute, stopping at the first
hit. -/
def findPKClause (primaryKeysAttrs : List String) : List Clause → Bool
  | [] => false
  | c :: rest =>
    match c.head? with
    | some kv =>
      if primaryKeysAttrs.contains kv.1 then true else findPKClause primaryKeysAttrs rest
    | none => findPKClause primaryKeysAttrs rest

/-- part_000 lines 546–551: `target.k = source.k` for each key. -/
def getJoinSnippet (targetTableAlias sourceTableAlias : String) (array : List String) :
    List String :=
  array.map (fun key =>
    let k := quoteIdentifier key
    targetTableAlias ++ "." ++ k ++ " = " ++ sourceTableAlias ++ "." ++ k)

/-- The MERGE statement built by `upsertQuery` (part_000 lines 569–586) once
the join-attribute set `joinAttrs` has been selected: join condition over
`joinAttrs`, UPDATE SET over the non-identity update keys, INSERT over the
insert keys. -/
def upsertMergeQuery (esc : JsVal → String) (tableName : String)
    (insertValues updateValues : JsObj) (model : UpsertModel)
    (joinAttrs : List String) : String :=
  let targetTableAlias := quoteTable (tableName ++ "_target")
  let sourceTableAlias := quoteTable (tableName ++ "_source")
  let identityAttrs := identityAttrsOf model
  let tableNameQuoted := quoteTable tableName
  let updateKeys := updateValues.map (·.1)
  let insertKeys := insertValues.map (·.1)
  let insertKeysQuoted := String.intercalate ", " (insertKeys.map quoteIdentifier)
  let insertValuesEscaped := String.intercalate ", " (insertValues.map (fun kv => esc kv.2))
  let sourceTableQuery := "VALUES(" ++ insertValuesEscaped ++ ")"
  let joinCondition := String.intercalate " AND "
    (getJoinSnippet targetTableAlias sourceTableAlias joinAttrs)
  let updateSnippet := String.intercalate ", "
    ((updateKeys.filter (fun key => !identityAttrs.contains key)).map (fun key =>
      targetTableAlias ++ "." ++ quoteIdentifier key ++ " = " ++ esc (jsGet updateValues key)))
  let insertSnippet := "(" ++ insertKeysQuoted ++ ") VALUES(" ++ insertValuesEscaped ++ ")"
  let query := "MERGE INTO " ++ tableNameQuoted ++ " AS " ++ targetTableAlias ++ " USING (" ++
    sourceTableQuery ++ ") AS " ++ sourceTableAlias ++ "(" ++ insertKeysQuoted ++ ") ON " ++
    joinCondition
  query ++ " WHEN MATCHED THEN UPDATE SET " ++ updateSnippet ++
    " WHEN NOT MATCHED THEN INSERT " ++ insertSnippet ++ ";"

/-- `upsertQuery` (part_000 lines 475–587).  `esc` is the external value
escaper.  The `needIdentityInsertWrapper` flag computed at lines 517–525 is
never read afterwards in the source and is omitted.  A thrown `Error` (line
554) is an `Except.error`; no SQL string is produced on that path.  The
source's first-match-then-break scan over the clauses always joins on the full
primary-key set when it hits, which `findPKClause` captures. -/
def upsertQuery (esc : JsVal → String) (tableName : String)
    (insertValues updateValues : JsObj) (whereOr : List Clause)
    (model : UpsertModel) : Except String String :=
  let primaryKeysAttrs := primaryKeysAttrsOf model
  let uniqueAttrs := upsertUniqueAttrs model
  let clauses := filterClauses whereOr
  if clauses.isEmpty then
    Except.error "Primary Key or Unique key should be passed to upsert query"
  else
    Except.ok (upsertMergeQuery esc tableName insertValues updateValues model
      (if findPKClause primaryKeysAttrs clauses then primaryKeysAttrs else uniqueAttrs))

/-! ### insertQuery (part_000 lines 66–155) -/

/-- Modelled from the spec: the Db2 dialect feature table
(`lib/dialects/db2/index.js`) is not under src/.  Spec §4.2 (Insert) requires
the synthetic single-value VALUES fallback for empty inserts, so the dialect
supports the degenerate `VALUES ()`; the spec gives Db2 no ON DUPLICATE KEY
handling.  The two auto-increment flags only matter inside nonempty rows and
are kept as data so nothing depends on their unspecified values. -/
structure DialectSupports where
  valuesEmpty : Bool
  onDuplicateKey : Bool
  insertsIgnoreDuplicates : String
  defaultKeyword : Bool
  autoIncrementDefaultValue : Bool
  deriving Repr, DecidableEq

/-- The per-generator mutable state: `this.autoGenValue`, initialized to `1`
in the constructor (part_000 line 25) and bumped by each `autoGenValue++`. -/
structure GenState where
  autoGenValue : Nat
  deriving Repr, DecidableEq

/-- The option bag slice `insertQuery` reads. -/
structure InsertOptions where
  ignoreDuplicates : Bool := false
  onDuplicate : Option String := none
  bindParam : Bool := true
  omitNull : Bool := false
  deriving Repr, DecidableEq

/-- `insertQuery` returns `{query}` plus, unless `options.bindParam === false`,
the positional bind list (part_000 lines 150–154). -/
structure InsertResult where
  query : String
  bind : Option (List JsVal)
  deriving Repr, DecidableEq

/-- Modelled from the spec: `Utils.removeNullValuesFromHash` lives in the ORM
base layer outside src/.  With `omitNull` unset it is the identity; with
`omitNull` set it drops null-valued entries (spec §4.2: "all columns are
defaulted/omitted"). -/
def removeNullValuesFromHash (hash : JsObj) (omitNull : Bool) : JsObj :=
  if omitNull then hash.filter (fun p => !(p.2 = JsVal.null)) else hash

/-- part_000 lines 82–89: key every model attribute under its name and,
when aliased, additionally under its `field`. -/
def buildModelAttributeMap (attrs : List (String × RawAttr)) : List (String × RawAttr) :=
  attrs.foldl
    (fun acc p =>
      let acc := assocSet acc p.1 p.2
      match p.2.field with
      | some f => assocSet acc f p.2
      | none => acc)
    []

/-- The `fields` / `values` / `bind` triple accumulated by the insert loop. -/
structure LoopOut where
  fields : List String
  values : List String
  bind : List JsVal
  deriving Repr, DecidableEq

/-- The value-rendering loop of `insertQuery` (part_000 lines 106–135) over the
null-filtered hash.  For an auto-increment attribute with a falsy value the
field is popped again (`fields.splice(-1, 1)`) when the dialect cannot default
identity columns, else `DEFAULT` / an escaped null is emitted; any other value
is escaped inline when `options.bindParam === false` and otherwise becomes a
`?` placeholder with the value pushed onto `bind` (the external
`this.format`).  `Utils.SequelizeMethod` wrappers are external raw-SQL holders
(out of scope, spec §1); values here are plain `JsVal`s. -/
def insertLoop (sup : DialectSupports) (esc : JsVal → String) (bindParam : Bool)
    (modelAttributeMap : List (String × RawAttr)) (hash : JsObj) : LoopOut :=
  hash.foldl
    (fun acc kv =>
      let fields := acc.fields ++ [quoteIdentifier kv.1]
      let pushValue : LoopOut :=
        if bindParam then
          { fields := fields, values := acc.values ++ ["?"], bind := acc.bind ++ [kv.2] }
        else
          { fields := fields, values := acc.values ++ [esc kv.2], bind := acc.bind }
      match assocGetOpt modelAttributeMap kv.1 with
      | some attr =>
        if attr.autoIncrement && !kv.2.truthy then
          if !sup.autoIncrementDefaultValue then
            { acc with fields := acc.fields }
          else if sup.defaultKeyword then
            { fields := fields, values := acc.values ++ ["DEFAULT"], bind := acc.bind }
          else
            { fields := fields, values := acc.values ++ [esc JsVal.null], bind := acc.bind }
        else pushValue
      | none => pushValue)
    ⟨[], [], []⟩

/-- The `modelAttributeMap` of `insertQuery` (part_000 lines 82–89): empty
when no model attributes were passed. -/
def modelAttributeMapOf (modelAttributes : Option (List (String × RawAttr))) :
    List (String × RawAttr) :=
  match modelAttributes with
  | some attrs => buildModelAttributeMap attrs
  | none => []

/-- `insertQuery` (part_000 lines 66–155).  The lodash templates are rendered
directly as string concatenation (`outputFragment` stays `undefined` and
renders as the empty string).  Whenever the dialect supports the degenerate
`VALUES ()` the pre-rendered empty-row query consumes one counter value
(`this.autoGenValue++`, line 92) — on every call, even if the nonempty-row
query is chosen in the end. -/
def insertQuery (sup : DialectSupports) (esc : JsVal → String) (st : GenState)
    (table : String) (valueHash : JsObj)
    (modelAttributes : Option (List (String × RawAttr))) (options : InsertOptions) :
    InsertResult × GenState :=
  let modelAttributeMap := modelAttributeMapOf modelAttributes
  let ignoreDup := if options.ignoreDuplicates then sup.insertsIgnoreDuplicates else ""
  let onDup :=
    if sup.onDuplicateKey then
      match options.onDuplicate with
      | some od => " ON DUPLICATE KEY " ++ od
      | none => ""
    else ""
  let autoGen := st.autoGenValue
  let st' : GenState := if sup.valuesEmpty then ⟨st.autoGenValue + 1⟩ else st
  let hash := removeNullValuesFromHash valueHash options.omitNull
  let out := insertLoop sup esc options.bindParam modelAttributeMap hash
  let attributes := String.intercalate "," out.fields
  let valuesStr := String.intercalate "," out.values
  let valueQuery := "INSERT" ++ ignoreDup ++ " INTO " ++ quoteTable table ++
    " (" ++ attributes ++ ") VALUES (" ++ valuesStr ++ ")" ++ onDup
  let emptyQuery := "INSERT" ++ ignoreDup ++ " INTO " ++ quoteTable table ++
    (if sup.valuesEmpty then " VALUES (" ++ toString autoGen ++ ")" else "") ++ onDup
  let query := "SELECT * FROM FINAL TABLE(" ++
    (if attributes.length != 0 then valueQuery else emptyQuery) ++ ");"
  ({ query := query, bind := if options.bindParam then some out.bind else none }, st')

/-! ### updateQuery (part_000 lines 431–473) -/

/-- The `{query, bind}` pair produced by the base-layer UPDATE builder and by
this dialect's override. -/
structure UpdateResult where
  query : String
  bind : List JsVal
  deriving Repr, DecidableEq

/-- `updateQuery` (part_000 lines 431–473).  `base` is the statement returned
by `super.updateQuery` (generic UPDATE builder, external per spec §6),
`whereSQL` the fragment rendered by the external `this.whereQuery`, and `esc`
the external escaper.  Without a (truthy) row limit the base query is wrapped
in `SELECT * FROM FINAL TABLE (…)` unchanged; with one, a fresh UPDATE is
built whose target is the derived subquery
`SELECT * FROM <table> <where> FETCH NEXT <limit> ROWS ONLY`, itself wrapped
in `SELECT * FROM FINAL TABLE (…)`. -/
def updateQuery (esc : JsVal → String) (base : UpdateResult) (tableName : String)
    (attrValueHash : JsObj) (whereSQL : String) (limit : JsVal)
    (bindParamFalse : Bool) (omitNull : Bool) : UpdateResult :=
  if !limit.truthy then
    { base with query := "SELECT * FROM FINAL TABLE (" ++ base.query ++ ")" }
  else
    let hash := removeNullValuesFromHash attrValueHash omitNull
    let out := hash.foldl
      (fun (acc : List String × List JsVal) kv =>
        if bindParamFalse then
          (acc.1 ++ [quoteIdentifier kv.1 ++ "=" ++ esc kv.2], acc.2)
        else
          (acc.1 ++ [quoteIdentifier kv.1 ++ "=?"], acc.2 ++ [kv.2]))
      ([], [])
    let query := "UPDATE (SELECT * FROM " ++ quoteTable tableName ++ " " ++ whereSQL ++
      " FETCH NEXT " ++ esc limit ++ " ROWS ONLY) SET " ++ String.intercalate "," out.1
    { query := "SELECT * FROM FINAL TABLE (" ++ query ++ ")", bind := out.2 }

/-! ## The query runner (src/lib/dialects/db2/query.js)

### Error translator (`formatError`, lines 315–403)

A raw driver error is a JavaScript object with (possibly absent) `message` and
`sql` properties.  `formatError` can itself throw a `TypeError` (property
access on `null`/`undefined`), so it is embedded in `Except String`. -/

/-- The raw error object handed to `formatError` (absent property = `none`). -/
structure ErrObj where
  message : Option String := none
  sql : Option String := none
  deriving Repr, DecidableEq

/-- What `this.model.uniqueKeys[name]` or the positional fallback
`this.options.fields[i]` yields: a declared-unique-key object carrying
`column` / `msg`, or a bare field-name string (an insert field list holds
strings).  Property access on a bare string yields `undefined`. -/
inductive KeyLike where
  | obj (column : Option String) (msg : Option String)
  | strv (s : String)
  deriving Repr, DecidableEq

/-- `uniqueKey.column`. -/
def KeyLike.columnOpt : KeyLike → Option String
  | .obj c _ => c
  | .strv _ => none

/-- `uniqueKey.msg`. -/
def KeyLike.msgOpt : KeyLike → Option String
  | .obj _ m => m
  | .strv _ => none

/-- The model metadata `formatError` reads. -/
structure ModelInfo where
  uniqueKeys : String → Option KeyLike

/-- The `this.options` slice `formatError` reads.  `instanceDataValues` is
`some` exactly when both `this.options.instance` and its `dataValues` are
present (the source tests both). -/
structure QueryOptions where
  whereOpt : Option JsObj := none
  instanceDataValues : Option JsObj := none
  fields : Option (List KeyLike) := none

/-- The live connection used for the catalog lookup: `querySync` returns the
raw result rows. -/
structure CatalogConn where
  querySync : String → List JsObj

/-- One entry of the `errors` array of a `UniqueConstraintError`
(`sequelizeErrors.ValidationErrorItem(message, 'unique violation', field,
value, this.instance, 'not_unique')`; the constant origin/validator-key
arguments and the instance reference are not modelled). -/
structure ValidationItem where
  message : String
  field : Option String
  value : JsVal
  deriving Repr, DecidableEq

/-- The `fields` object of a `UniqueConstraintError`: at most one entry, keyed
by `uniqueKey.column` (`none` models the JavaScript key `undefined` arising
when the resolved unique key is a bare string). -/
abbrev FieldsMap := List (Option String × JsVal)

/-- The semantic-error taxonomy produced by `formatError` (spec §3
SemanticError), each wrapping the original error. -/
inductive SemanticError where
  | uniqueConstraint (message : String) (errors : List ValidationItem)
      (fields : FieldsMap) (parent : ErrObj)
  | foreignKeyConstraint (index : Option String) (parent : ErrObj)
  | unknownConstraint (message : String) (constraint : String)
      (table : Option String) (parent : ErrObj)
  | databaseError (parent : ErrObj)
  deriving Repr, DecidableEq

/-- Modelled from the spec: `getUniqueConstraintErrorMessage` lives in the
abstract base query class outside src/ (spec §4.5: "a generated message per
field"). -/
def getUniqueConstraintErrorMessage (field : Option String) : String :=
  match field with
  | some f => f ++ " must be unique"
  | none => "must be unique"

/-- The literal pieces of the SQL0803N unique-violation pattern
(query.js line 322). -/
def sql0803Pre : List Char :=
  ("SQL0803N  One or more values in the INSERT statement, UPDATE statement, or foreign " ++
   "key update caused by a DELETE statement are not valid because the primary key, unique " ++
   "constraint or unique index identified by \"").toList

def sql0803Mid : List Char := "\" constrains table \"".toList

def sql0803Post : List Char := "\" from having duplicate values for the index key.".toList

/-- The SQL0803N unique-violation match.  The capture `"(\d)+"` retains only
the digit consumed by the last iteration of the group, so the returned index
id is the final digit; the greedy `"(.*)\.(.*)"` splits the quoted qualified
table name at its last dot.  (The regex's unescaped dots and the possibility
of the literal fragments recurring inside the message are ignored: on the
vendor's actual message text both readings agree.) -/
def sql0803Match (msg : String) : Option (Nat × String × String) :=
  match splitFirstSub sql0803Pre msg.toList with
  | none => none
  | some (_, rest) =>
    let digits := rest.takeWhile Char.isDigit
    match digits.getLast? with
    | none => none
    | some dl =>
      match stripPre sql0803Mid (rest.dropWhile Char.isDigit) with
      | none => none
      | some rest2 =>
        match splitFirstSub sql0803Post rest2 with
        | none => none
        | some (qual, _) =>
          match splitLastDot qual with
          | none => none
          | some (sch, tab) => some (dl.toNat - '0'.toNat, String.mk sch, String.mk tab)

/-- Capture the text between a literal prefix and a literal suffix (first
occurrence of each; the vendor messages matched this way contain each fragment
once, where this coincides with the regex's greedy backtracking). -/
def captureBetween (pre post msg : List Char) : Option (List Char) :=
  match splitFirstSub pre msg with
  | none => none
  | some (_, rest) =>
    match splitFirstSub post rest with
    | none => none
    | some (cap, _) => some cap

/-- The SQL0532N foreign-key pattern (query.js line 377) with its captured
relationship name. -/
def sql0532Match (msg : String) : Option String :=
  (captureBetween
      "SQL0532N  A parent row cannot be deleted because the relationship \"".toList
      "\" restricts the deletion".toList msg.toList).map String.mk

/-- Lines 377–379: the three foreign-key patterns tried with `||`; SQL0530N /
SQL0531N have no capture group, so `match[1]` is `undefined` there. -/
def fkMatch (msg : String) : Option (Option String) :=
  match sql0532Match msg with
  | some rel => some (some rel)
  | none =>
    if containsSub "SQL0530N".toList msg.toList then some none
    else if containsSub "SQL0531N".toList msg.toList then some none
    else none

/-- Line 388: `/SQL0204N  "(.*)" is an undefined name./` with its captured
identifier. -/
def sql0204NameMatch (msg : String) : Option String :=
  (captureBetween "SQL0204N  \"".toList "\" is an undefined name.".toList msg.toList).map
    String.mk

/-- Case-insensitive variant of `splitFirstSub` (for the `/table "(.+?)"/i`
lookup in the failing SQL text). -/
def splitFirstSubCI (pat : List Char) : List Char → Option (List Char × List Char)
  | [] => if pat.isEmpty then some ([], []) else none
  | x :: xs =>
    if (pat.map Char.toLower).isPrefixOf ((x :: xs).map Char.toLower) then
      some ([], (x :: xs).drop pat.length)
    else (splitFirstSubCI pat xs).map (fun p => (x :: p.1, p.2))

/-- Line 391: extract the table name from the failing SQL via
`/table "(.+?)"/i` (lazy capture: up to the first closing quote, nonempty). -/
def tableFromSql (sqlText : String) : Option String :=
  match splitFirstSubCI "table \"".toList sqlText.toList with
  | none => none
  | some (_, rest) =>
    let cap := rest.takeWhile (fun c => c != '"')
    if cap.isEmpty || !hasChar '"' rest then none else some (String.mk cap)

/-- `o[k] !== undefined` as a lookup: a property that is absent, or present
with value `undefined`, yields `none`. -/
def jsGetDefinedOpt (o : JsObj) (k : String) : Option JsVal :=
  match jsGetOpt o k with
  | some v => if v = JsVal.undefined then none else some v
  | none => none

/-- Truthiness of `err.message`. -/
def jsMessageTruthy (e : ErrObj) : Bool :=
  match e.message with
  | some m => !m.isEmpty
  | none => false

def jsTruthyObjOpt : Option ErrObj → Bool
  | some _ => true
  | none => false

/-- Line 318, `!(err || err.message)`: `||` short-circuits on a truthy left
operand, so for any non-null `err` the guard is `false` without reading
`message`; for a null/undefined `err` the right operand's property access
throws. -/
def formatErrorGuard (err? : Option ErrObj) : Except String Bool :=
  if jsTruthyObjOpt err? then Except.ok false
  else
    match err? with
    | none => Except.error "TypeError: Cannot read properties of null (reading 'message')"
    | some e => Except.ok (!jsMessageTruthy e)

/-- Lines 324–356: resolve the real index name through the live connection
(`SELECT INDNAME FROM SYSCAT.INDEXES …`, first row's `INDNAME`), map it to a
declared unique key on the model, else fall back to
`this.options.fields[match[1] - 1]`.  Returns the resolved key, inside
`Except` because `querySync(…)[0]` throws when the catalog returns no row. -/
def resolveUniqueKey (model? : Option ModelInfo) (fields? : Option (List KeyLike))
    (conn? : Option CatalogConn) (d : Nat) (sch tab : String) :
    Except String (Option KeyLike) := do
  let query := "SELECT INDNAME FROM SYSCAT.INDEXES  WHERE IID = " ++ toString d ++
    " AND TABSCHEMA = '" ++ sch ++ "' AND TABNAME = '" ++ tab ++ "'"
  let uniqueIndexName : JsVal ←
    match conn? with
    | some conn =>
      match (conn.querySync query).head? with
      | none => Except.error "TypeError: Cannot read properties of undefined (reading 'INDNAME')"
      | some row => Except.ok (jsGet row "INDNAME")
    | none => Except.ok (JsVal.str "")
  let uniqueKey0 : Option KeyLike :=
    match model?, uniqueIndexName with
    | some m, .str s => if s.isEmpty then none else m.uniqueKeys s
    | _, _ => none
  match uniqueKey0 with
  | some k => return some k
  | none =>
    match fields? with
    | some fs => return jsArrayGet fs ((d : Int) - 1)
    | none => return none

/-- Line 347–349: `this.options.where && this.options.where[uniqueKey.column]
!== undefined`, as a lookup (a column of `none` models the JavaScript property
key `undefined`, never an own property). -/
def whereHitOf (opts : QueryOptions) (c : Option String) : Option JsVal :=
  match opts.whereOpt, c with
  | some w, some cn => jsGetDefinedOpt w cn
  | _, _ => none

/-- Lines 350–352: the bound instance's current value for the column, counted
only when truthy. -/
def instanceHitOf (opts : QueryOptions) (c : Option String) : Option JsVal :=
  match opts.instanceDataValues, c with
  | some dv, some cn =>
    let v := jsGet dv cn
    if v.truthy then some v else none
  | _, _ => none

/-- Lines 346–356: build the one-entry `fields` object for the resolved key,
attributing the offending value from the where-clause (`!== undefined` test),
else the bound instance's truthy current value, else `parameters['0']`. -/
def attributeFields (opts : QueryOptions) (parameters? : Option (List JsVal))
    (uniqueKey : Option KeyLike) : FieldsMap :=
  match uniqueKey with
  | none => []
  | some uk =>
    let c := uk.columnOpt
    match whereHitOf opts c with
    | some v => [(c, v)]
    | none =>
      match instanceHitOf opts c with
      | some v => [(c, v)]
      | none =>
        match parameters? with
        | some ps => [(c, (ps.head?).getD JsVal.undefined)]
        | none => []

/-- The pattern chain of `formatError` (lines 322–402) applied to the error's
message once the guard has run: unique-violation, foreign-key, undefined-name,
else generic database error. -/
def translateMessage (model? : Option ModelInfo) (opts : QueryOptions) (err : ErrObj)
    (msg : String) (conn? : Option CatalogConn) (parameters? : Option (List JsVal)) :
    Except String SemanticError := do
  match sql0803Match msg with
  | some (d, sch, tab) =>
    let uniqueKey ← resolveUniqueKey model? opts.fields conn? d sch tab
    let fields := attributeFields opts parameters? uniqueKey
    let message :=
      match uniqueKey with
      | some uk =>
        match uk.msgOpt with
        | some m => if m.isEmpty then msg else m
        | none => msg
      | none => msg
    let errors := fields.map (fun p =>
      { message := getUniqueConstraintErrorMessage p.1, field := p.1, value := p.2 })
    return SemanticError.uniqueConstraint message errors fields err
  | none =>
    match fkMatch msg with
    | some idx? => return SemanticError.foreignKeyConstraint idx? err
    | none =>
      match sql0204NameMatch msg with
      | some constraintName =>
        match err.sql with
        | none =>
          Except.error "TypeError: Cannot read properties of undefined (reading 'match')"
        | some sqlText =>
          return SemanticError.unknownConstraint
            ("SQL0204N  \"" ++ constraintName ++ "\" is an undefined name.")
            constraintName (tableFromSql sqlText) err
      | none => return SemanticError.databaseError err

/-- `formatError` (query.js lines 315–403). -/
def formatError (model? : Option ModelInfo) (opts : QueryOptions)
    (err? : Option ErrObj) (conn? : Option CatalogConn)
    (parameters? : Option (List JsVal)) : Except String SemanticError := do
  let g ← formatErrorGuard err?
  match err? with
  | none => Except.error "unreachable: the guard evaluation already threw"
  | some err0 =>
    let err := if g then { err0 with message := some "No error message found." } else err0
    match err.message with
    | none => Except.error "TypeError: Cannot read properties of undefined (reading 'match')"
    | some msg => translateMessage model? opts err msg conn? parameters?

/-! ### Execution-error suppression (`_run`, query.js lines 121–144) -/

/-- The benign-code chain (lines 122–136): an `else if` cascade that nulls the
error out for SQL0204N (only on a `DROP `-prefixed statement), SQL0443N,
SQL0601N, SQL0911N (only with `Reason code "2"` in the message) and SQL0605W.
Note the cascade: a message carrying SQL0911N without the reason code ends the
chain without reaching the SQL0605W test. -/
def benignNull (msg sqlText : String) : Bool :=
  let m := msg.toList
  if containsSub "SQL0204N".toList m && "DROP ".toList.isPrefixOf sqlText.toList then true
  else if containsSub "SQL0443N".toList m then true
  else if containsSub "SQL0601N".toList m then true
  else if containsSub "SQL0911N".toList m then containsSub "Reason code \"2\"".toList m
  else containsSub "SQL0605W".toList m

/-- What `stmt.execute`'s error handling does with a driver error (lines
121–144): a nulled-out error resolves `this.formatResults([], 0)` (success
with an empty result); anything else gets the statement text attached
(`err.sql = sql`) and is rejected through the error translator
(`reject(this.formatError(err, connection, parameters))`). -/
inductive ExecOutcome where
  | suppressed
  | translated (err : ErrObj)
  deriving Repr, DecidableEq

def handleExecuteError (msg sqlText : String) : ExecOutcome :=
  if benignNull msg sqlText then ExecOutcome.suppressed
  else ExecOutcome.translated { message := some msg, sql := some sqlText }

/-! ### Transaction-control dispatch (`_run`, query.js lines 55–95) -/

/-- The connection-level transaction primitives consumed by `_run` (spec §6).
Each yields `none` on success or the driver error's message.
`commitTransactionErr` receives the optional savepoint-name argument. -/
structure Conn where
  beginTransactionErr : Option String
  commitTransactionErr : Option String → Option String
  rollbackTransactionErr : Option String

/-- A driver interaction recorded by the dispatch. -/
inductive DriverCall where
  | beginTransaction
  | commitTransaction (savepoint : Option String)
  | rollbackTransaction
  | prepare (sql : String)
  deriving Repr, DecidableEq

/-- How `_run` settles: `resolvedEmpty` models `resolve(this.formatResults())`
(no data), `rejected e` models `reject(this.formatError(err))` for a primitive
failure with message `e`, and `dataPath` marks the fall-through to the
prepare/execute path (whose error handling is `handleExecuteError`). -/
inductive RunOutcome where
  | resolvedEmpty
  | rejected (errMessage : String)
  | dataPath
  deriving Repr, DecidableEq

/-- The statement dispatch of `_run` (lines 57–95): the four transaction
prefixes are tried in order; `SAVE TRANSACTION` calls
`commitTransaction(cb, this.options.transaction.name)` and, only on success,
`beginTransaction`, resolving only after both succeed.  Every other statement
reaches the prepare/execute path. -/
def runDispatch (conn : Conn) (sql : List Char) (transactionName : String) :
    RunOutcome × List DriverCall :=
  if startsWithL "BEGIN TRANSACTION".toList sql then
    match conn.beginTransactionErr with
    | some e => (RunOutcome.rejected e, [DriverCall.beginTransaction])
    | none => (RunOutcome.resolvedEmpty, [DriverCall.beginTransaction])
  else if startsWithL "COMMIT TRANSACTION".toList sql then
    match conn.commitTransactionErr none with
    | some e => (RunOutcome.rejected e, [DriverCall.commitTransaction none])
    | none => (RunOutcome.resolvedEmpty, [DriverCall.commitTransaction none])
  else if startsWithL "ROLLBACK TRANSACTION".toList sql then
    match conn.rollbackTransactionErr with
    | some e => (RunOutcome.rejected e, [DriverCall.rollbackTransaction])
    | none => (RunOutcome.resolvedEmpty, [DriverCall.rollbackTransaction])
  else if startsWithL "SAVE TRANSACTION".toList sql then
    match conn.commitTransactionErr (some transactionName) with
    | some e => (RunOutcome.rejected e, [DriverCall.commitTransaction (some transactionName)])
    | none =>
      match conn.beginTransactionErr with
      | some e =>
        (RunOutcome.rejected e,
          [DriverCall.commitTransaction (some transactionName), DriverCall.beginTransaction])
      | none =>
        (RunOutcome.resolvedEmpty,
          [DriverCall.commitTransaction (some transactionName), DriverCall.beginTransaction])
  else (RunOutcome.dataPath, [DriverCall.prepare (String.mk sql)])

/-! ### Insert-id assignment (`handleInsertQuery`, query.js lines 460–478) -/

/-- The model metadata `handleInsertQuery` reads. -/
structure InsertModel where
  autoIncrementAttribute : String
  rawAttributes : List (String × RawAttr)

/-- JavaScript `a || b`: the first truthy operand, else the last operand. -/
def jsOr (a b : JsVal) : JsVal := if a.truthy then a else b

/-- `results && results[0] && results[0][key]`. -/
def firstRowGet (results? : Option (List JsObj)) (key : String) : JsVal :=
  match results? with
  | some rs =>
    match rs.head? with
    | some r0 => jsGet r0 key
    | none => JsVal.undefined
  | none => JsVal.undefined

/-- `handleInsertQuery` (lines 460–478): with a bound instance, compute the
generated id as the first truthy candidate of the `||` chain — first row's
`id`, metadata `id`, first row's raw auto-increment attribute, first row's
aliased field — and write it onto the instance's auto-increment attribute.
Returns the updated instance (`none` when no instance is bound: the function
does nothing). -/
def handleInsertQuery (results? : Option (List JsObj)) (metaData? : Option JsObj)
    (model : InsertModel) (instance? : Option JsObj) : Option JsObj :=
  match instance? with
  | none => none
  | some inst =>
    let autoIncrementAttribute := model.autoIncrementAttribute
    let autoIncrementAttributeAlias : Option String :=
      match assocGetOpt model.rawAttributes autoIncrementAttribute with
      | some attr => attr.field
      | none => none
    let cand1 := firstRowGet results? "id"
    let cand2 := match metaData? with
      | some md => jsGet md "id"
      | none => JsVal.undefined
    let cand3 := firstRowGet results? autoIncrementAttribute
    let cand4 := match autoIncrementAttributeAlias with
      | some al => if al.isEmpty then JsVal.undefined else firstRowGet results? al
      | none => JsVal.undefined
    let id := jsOr (jsOr (jsOr (jsOr JsVal.null cand1) cand2) cand3) cand4
    some (jsSet inst autoIncrementAttribute id)

/-! ## Supporting lemmas on the scanning primitives -/

theorem hasChar_eq_false {c : Char} {l : List Char} (h : ∀ ch ∈ l, ch ≠ c) :
    hasChar c l = false := by
  induction l with
  | nil => rfl
  | cons x xs ih =>
    have hx : x ≠ c := h x (by simp)
    simp [hasChar, hx, ih (fun ch hm => h ch (by simp [hm]))]

theorem hasChar_cons_self (c : Char) (l : List Char) : hasChar c (c :: l) = true := by
  simp [hasChar]

theorem replaceFirstChar_of_not_mem {c : Char} {repl l : List Char}
    (h : ∀ ch ∈ l, ch ≠ c) : replaceFirstChar c repl l = l := by
  induction l with
  | nil => rfl
  | cons x xs ih =>
    have hx : x ≠ c := h x (by simp)
    simp [replaceFirstChar, hx, ih (fun ch hm => h ch (by simp [hm]))]

theorem replaceFirstChar_append {c : Char} {repl p q : List Char}
    (h : ∀ ch ∈ p, ch ≠ c) :
    replaceFirstChar c repl (p ++ c :: q) = p ++ repl ++ q := by
  induction p with
  | nil => simp [replaceFirstChar]
  | cons x xs ih =>
    have hx : x ≠ c := h x (by simp)
    simp only [List.cons_append, replaceFirstChar, hx, if_neg, beq_iff_eq, if_false]
    simp [ih (fun ch hm => h ch (by simp [hm]))]

theorem splitOnCharAux_no_sep {c : Char} {l : List Char} (acc : List Char)
    (h : ∀ ch ∈ l, ch ≠ c) : splitOnCharAux c l acc = [acc.reverse ++ l] := by
  induction l generalizing acc with
  | nil => simp [splitOnCharAux]
  | cons x xs ih =>
    have hx : x ≠ c := h x (by simp)
    simp only [splitOnCharAux, beq_iff_eq, hx, if_false]
    rw [ih (x :: acc) (fun ch hm => h ch (by simp [hm]))]
    simp

theorem splitOnCharAux_append {c : Char} {p q : List Char} (acc : List Char)
    (h : ∀ ch ∈ p, ch ≠ c) :
    splitOnCharAux c (p ++ c :: q) acc = (acc.reverse ++ p) :: splitOnCharAux c q [] := by
  induction p generalizing acc with
  | nil => simp [splitOnCharAux]
  | cons x xs ih =>
    have hx : x ≠ c := h x (by simp)
    have hstep : splitOnCharAux c ((x :: xs) ++ c :: q) acc =
        splitOnCharAux c (xs ++ c :: q) (x :: acc) := by
      simp [splitOnCharAux, hx]
    rw [hstep, ih (x :: acc) (fun ch hm => h ch (by simp [hm]))]
    simp

theorem dropWhile_eq_self_of {p : Char → Bool} {l : List Char}
    (h : ∀ ch ∈ l, p ch = false) : l.dropWhile p = l := by
  cases l with
  | nil => rfl
  | cons x xs => simp [List.dropWhile, h x (by simp)]

theorem trimChars_eq_self {l : List Char} (h : ∀ ch ∈ l, isJsSpace ch = false) :
    trimChars l = l := by
  unfold trimChars
  rw [dropWhile_eq_self_of h, dropWhile_eq_self_of (fun ch hm => h ch (by simpa using hm))]
  simp

/-- A character that is not whitespace per `isJsSpace` is not `' '`. -/
theorem ne_space_of_not_isJsSpace {ch : Char} (h : isJsSpace ch = false) : ch ≠ ' ' := by
  intro he
  subst he
  simp [isJsSpace] at h

/-- Token computation: after the sign rewriting the list has the shape
`' ' :: '+' :: x ++ ' ' :: '-' :: y`, and splitting on spaces yields the empty
token, `+x` and `-y`. -/
theorem colnames_tokens (x y : List Char)
    (hxspace : ∀ ch ∈ x, ch ≠ ' ') (hyspace : ∀ ch ∈ y, ch ≠ ' ') :
    splitOnChar ' ' (' ' :: '+' :: (x ++ ' ' :: '-' :: y)) =
      [[], '+' :: x, '-' :: y] := by
  have hp : ∀ ch ∈ ('+' :: x), ch ≠ ' ' := by
    intro ch hm
    simp only [List.mem_cons] at hm
    rcases hm with rfl | hm'
    · decide
    · exact hxspace _ hm'
  have hq : ∀ ch ∈ ('-' :: y), ch ≠ ' ' := by
    intro ch hm
    simp only [List.mem_cons] at hm
    rcases hm with rfl | hm'
    · decide
    · exact hyspace _ hm'
  unfold splitOnChar
  have e1 : (' ' :: '+' :: (x ++ ' ' :: '-' :: y)) =
      [] ++ ' ' :: (('+' :: x) ++ ' ' :: ('-' :: y)) := by simp
  rw [e1, splitOnCharAux_append [] (by simp),
    splitOnCharAux_append [] hp, splitOnCharAux_no_sep [] hq]
  simp

/-- Evaluation of `colnamesFields` on a two-column ascending/descending
COLNAMES list `+x-y` whose column names are nonempty and free of signs and
whitespace. -/
theorem colnamesFields_plus_minus (x y : List Char)
    (hxs : ∀ ch ∈ x, ch ≠ '+' ∧ ch ≠ '-' ∧ isJsSpace ch = false)
    (hys : ∀ ch ∈ y, ch ≠ '+' ∧ ch ≠ '-' ∧ isJsSpace ch = false) :
    colnamesFields ('+' :: x ++ '-' :: y) =
      [⟨String.mk x, "ASC"⟩, ⟨String.mk y, "DESC"⟩] := by
  have hxminus : ∀ ch ∈ x, ch ≠ '-' := fun ch hm => (hxs ch hm).2.1
  have hxspace : ∀ ch ∈ x, ch ≠ ' ' := fun ch hm =>
    ne_space_of_not_isJsSpace (hxs ch hm).2.2
  have hyplus : ∀ ch ∈ y, ch ≠ '+' := fun ch hm => (hys ch hm).1
  have hyspace : ∀ ch ∈ y, ch ≠ ' ' := fun ch hm =>
    ne_space_of_not_isJsSpace (hys ch hm).2.2
  unfold colnamesFields
  have h1 : replaceFirstChar '+' [' ', '+'] ('+' :: x ++ '-' :: y) =
      ' ' :: '+' :: (x ++ '-' :: y) := by
    simp [replaceFirstChar]
  rw [h1]
  have h2 : replaceFirstChar '-' [' ', '-'] ((' ' :: '+' :: x) ++ '-' :: y) =
      (' ' :: '+' :: x) ++ [' ', '-'] ++ y := by
    apply replaceFirstChar_append
    intro ch hm
    simp only [List.mem_cons] at hm
    rcases hm with rfl | rfl | hm'
    · decide
    · decide
    · exact hxminus _ hm'
  have h2' : replaceFirstChar '-' [' ', '-'] (' ' :: '+' :: (x ++ '-' :: y)) =
      ' ' :: '+' :: (x ++ ' ' :: '-' :: y) := by
    have e : (' ' :: '+' :: (x ++ '-' :: y)) = (' ' :: '+' :: x) ++ '-' :: y := by simp
    rw [e, h2]
    simp
  rw [h2', colnames_tokens x y hxspace hyspace]
  have htrim1 : trimChars ('+' :: x) = '+' :: x := by
    apply trimChars_eq_self
    intro ch hm
    simp only [List.mem_cons] at hm
    rcases hm with rfl | hm'
    · decide
    · exact (hxs _ hm').2.2
  have htrim2 : trimChars ('-' :: y) = '-' :: y := by
    apply trimChars_eq_self
    intro ch hm
    simp only [List.mem_cons] at hm
    rcases hm with rfl | hm'
    · decide
    · exact (hys _ hm').2.2
  have hinner1 : replaceFirstChar '-' [] ('+' :: x) = '+' :: x := by
    apply replaceFirstChar_of_not_mem
    intro ch hm
    simp only [List.mem_cons] at hm
    rcases hm with rfl | hm'
    · decide
    · exact hxminus _ hm'
  have hstrip1 : replaceFirstChar '+' [] (replaceFirstChar '-' [] ('+' :: x)) = x := by
    rw [hinner1]
    simp [replaceFirstChar]
  have hstrip2 : replaceFirstChar '+' [] (replaceFirstChar '-' [] ('-' :: y)) = y := by
    have e : replaceFirstChar '-' [] ('-' :: y) = y := by simp [replaceFirstChar]
    rw [e, replaceFirstChar_of_not_mem hyplus]
  have hord1 : hasChar '-' ('+' :: x) = false := by
    apply hasChar_eq_false
    intro ch hm
    simp only [List.mem_cons] at hm
    rcases hm with rfl | hm'
    · decide
    · exact hxminus _ hm'
  simp only [List.filterMap]
  rw [htrim1, htrim2]
  simp only [trimChars, List.dropWhile, List.reverse_nil, List.isEmpty_nil, if_true,
    List.isEmpty_cons, hstrip1, hstrip2, hord1, hasChar_cons_self]
  simp

/-- Evaluation of `colnamesFields` on a single ascending column `+x`. -/
theorem colnamesFields_single_plus (x : List Char)
    (hxs : ∀ ch ∈ x, ch ≠ '+' ∧ ch ≠ '-' ∧ isJsSpace ch = false) :
    colnamesFields ('+' :: x) = [⟨String.mk x, "ASC"⟩] := by
  have hxminus : ∀ ch ∈ x, ch ≠ '-' := fun ch hm => (hxs ch hm).2.1
  have hxspace : ∀ ch ∈ x, ch ≠ ' ' := fun ch hm =>
    ne_space_of_not_isJsSpace (hxs ch hm).2.2
  unfold colnamesFields
  have h1 : replaceFirstChar '+' [' ', '+'] ('+' :: x) = ' ' :: '+' :: x := by
    simp [replaceFirstChar]
  have h2 : replaceFirstChar '-' [' ', '-'] (' ' :: '+' :: x) = ' ' :: '+' :: x := by
    apply replaceFirstChar_of_not_mem
    intro ch hm
    simp only [List.mem_cons] at hm
    rcases hm with rfl | rfl | hm'
    · decide
    · decide
    · exact hxminus _ hm'
  rw [h1, h2]
  have htok : splitOnChar ' ' (' ' :: '+' :: x) = [[], '+' :: x] := by
    unfold splitOnChar
    have e1 : (' ' :: '+' :: x) = [] ++ ' ' :: ('+' :: x) := by simp
    rw [e1, splitOnCharAux_append [] (by simp), splitOnCharAux_no_sep [] (by
      intro ch hm
      simp only [List.mem_cons] at hm
      rcases hm with rfl | hm'
      · decide
      · exact hxspace _ hm')]
    simp
  rw [htok]
  have htrim1 : trimChars ('+' :: x) = '+' :: x := by
    apply trimChars_eq_self
    intro ch hm
    simp only [List.mem_cons] at hm
    rcases hm with rfl | hm'
    · decide
    · exact (hxs _ hm').2.2
  have hinner1 : replaceFirstChar '-' [] ('+' :: x) = '+' :: x := by
    apply replaceFirstChar_of_not_mem
    intro ch hm
    simp only [List.mem_cons] at hm
    rcases hm with rfl | hm'
    · decide
    · exact hxminus _ hm'
  have hstrip1 : replaceFirstChar '+' [] (replaceFirstChar '-' [] ('+' :: x)) = x := by
    rw [hinner1]
    simp [replaceFirstChar]
  have hord1 : hasChar '-' ('+' :: x) = false := by
    apply hasChar_eq_false
    intro ch hm
    simp only [List.mem_cons] at hm
    rcases hm with rfl | hm'
    · decide
    · exact hxminus _ hm'
  simp only [List.filterMap]
  rw [htrim1]
  simp only [trimChars, List.dropWhile, List.reverse_nil, List.isEmpty_nil, if_true,
    List.isEmpty_cons, hstrip1, hord1]
  simp

/-- Evaluation of `colnamesFields` on a single descending column `-y`. -/
theorem colnamesFields_single_minus (y : List Char)
    (hys : ∀ ch ∈ y, ch ≠ '+' ∧ ch ≠ '-' ∧ isJsSpace ch = false) :
    colnamesFields ('-' :: y) = [⟨String.mk y, "DESC"⟩] := by
  have hyminus : ∀ ch ∈ y, ch ≠ '-' := fun ch hm => (hys ch hm).2.1
  have hyplus : ∀ ch ∈ y, ch ≠ '+' := fun ch hm => (hys ch hm).1
  have hyspace : ∀ ch ∈ y, ch ≠ ' ' := fun ch hm =>
    ne_space_of_not_isJsSpace (hys ch hm).2.2
  unfold colnamesFields
  have h1 : replaceFirstChar '+' [' ', '+'] ('-' :: y) = '-' :: y := by
    apply replaceFirstChar_of_not_mem
    intro ch hm
    simp only [List.mem_cons] at hm
    rcases hm with rfl | hm'
    · decide
    · exact hyplus _ hm'
  have h2 : replaceFirstChar '-' [' ', '-'] ('-' :: y) = ' ' :: '-' :: y := by
    simp [replaceFirstChar]
  rw [h1, h2]
  have htok : splitOnChar ' ' (' ' :: '-' :: y) = [[], '-' :: y] := by
    unfold splitOnChar
    have e1 : (' ' :: '-' :: y) = [] ++ ' ' :: ('-' :: y) := by simp
    rw [e1, splitOnCharAux_append [] (by simp), splitOnCharAux_no_sep [] (by
      intro ch hm
      simp only [List.mem_cons] at hm
      rcases hm with rfl | hm'
      · decide
      · exact hyspace _ hm')]
    simp
  rw [htok]
  have htrim2 : trimChars ('-' :: y) = '-' :: y := by
    apply trimChars_eq_self
    intro ch hm
    simp only [List.mem_cons] at hm
    rcases hm with rfl | hm'
    · decide
    · exact (hys _ hm').2.2
  have hstrip2 : replaceFirstChar '+' [] (replaceFirstChar '-' [] ('-' :: y)) = y := by
    have e : replaceFirstChar '-' [] ('-' :: y) = y := by simp [replaceFirstChar]
    rw [e, replaceFirstChar_of_not_mem hyplus]
  simp only [List.filterMap]
  rw [htrim2]
  simp only [trimChars, List.dropWhile, List.reverse_nil, List.isEmpty_nil, if_true,
    List.isEmpty_cons, hstrip2, hasChar_cons_self]
  simp

/-- Token computation for the descending-then-ascending arrangement: after the
sign rewriting the list has the shape `' ' :: '-' :: y ++ ' ' :: '+' :: x`,
and splitting on spaces yields the empty token, `-y` and `+x`. -/
theorem colnames_tokens_rev (x y : List Char)
    (hxspace : ∀ ch ∈ x, ch ≠ ' ') (hyspace : ∀ ch ∈ y, ch ≠ ' ') :
    splitOnChar ' ' (' ' :: '-' :: (y ++ ' ' :: '+' :: x)) =
      [[], '-' :: y, '+' :: x] := by
  have hp : ∀ ch ∈ ('-' :: y), ch ≠ ' ' := by
    intro ch hm
    simp only [List.mem_cons] at hm
    rcases hm with rfl | hm'
    · decide
    · exact hyspace _ hm'
  have hq : ∀ ch ∈ ('+' :: x), ch ≠ ' ' := by
    intro ch hm
    simp only [List.mem_cons] at hm
    rcases hm with rfl | hm'
    · decide
    · exact hxspace _ hm'
  unfold splitOnChar
  have e1 : (' ' :: '-' :: (y ++ ' ' :: '+' :: x)) =
      [] ++ ' ' :: (('-' :: y) ++ ' ' :: ('+' :: x)) := by simp
  rw [e1, splitOnCharAux_append [] (by simp),
    splitOnCharAux_append [] hp, splitOnCharAux_no_sep [] hq]
  simp

/-- Evaluation of `colnamesFields` on a two-column descending/ascending
COLNAMES list `-y+x` whose column names are free of signs and whitespace. -/
theorem colnamesFields_minus_plus (x y : List Char)
    (hxs : ∀ ch ∈ x, ch ≠ '+' ∧ ch ≠ '-' ∧ isJsSpace ch = false)
    (hys : ∀ ch ∈ y, ch ≠ '+' ∧ ch ≠ '-' ∧ isJsSpace ch = false) :
    colnamesFields ('-' :: y ++ '+' :: x) =
      [⟨String.mk y, "DESC"⟩, ⟨String.mk x, "ASC"⟩] := by
  have hxminus : ∀ ch ∈ x, ch ≠ '-' := fun ch hm => (hxs ch hm).2.1
  have hxspace : ∀ ch ∈ x, ch ≠ ' ' := fun ch hm =>
    ne_space_of_not_isJsSpace (hxs ch hm).2.2
  have hyplus : ∀ ch ∈ y, ch ≠ '+' := fun ch hm => (hys ch hm).1
  have hyspace : ∀ ch ∈ y, ch ≠ ' ' := fun ch hm =>
    ne_space_of_not_isJsSpace (hys ch hm).2.2
  unfold colnamesFields
  have h1 : replaceFirstChar '+' [' ', '+'] (('-' :: y) ++ '+' :: x) =
      ('-' :: y) ++ [' ', '+'] ++ x := by
    apply replaceFirstChar_append
    intro ch hm
    simp only [List.mem_cons] at hm
    rcases hm with rfl | hm'
    · decide
    · exact hyplus _ hm'
  have h1' : replaceFirstChar '+' [' ', '+'] ('-' :: y ++ '+' :: x) =
      '-' :: (y ++ ' ' :: '+' :: x) := by
    rw [h1]
    simp
  have h2 : replaceFirstChar '-' [' ', '-'] ('-' :: (y ++ ' ' :: '+' :: x)) =
      ' ' :: '-' :: (y ++ ' ' :: '+' :: x) := by
    simp [replaceFirstChar]
  rw [h1', h2, colnames_tokens_rev x y hxspace hyspace]
  have htrimm : trimChars ('-' :: y) = '-' :: y := by
    apply trimChars_eq_self
    intro ch hm
    simp only [List.mem_cons] at hm
    rcases hm with rfl | hm'
    · decide
    · exact (hys _ hm').2.2
  have htrimp : trimChars ('+' :: x) = '+' :: x := by
    apply trimChars_eq_self
    intro ch hm
    simp only [List.mem_cons] at hm
    rcases hm with rfl | hm'
    · decide
    · exact (hxs _ hm').2.2
  have hstripm : replaceFirstChar '+' [] (replaceFirstChar '-' [] ('-' :: y)) = y := by
    have e : replaceFirstChar '-' [] ('-' :: y) = y := by simp [replaceFirstChar]
    rw [e, replaceFirstChar_of_not_mem hyplus]
  have hinnerp : replaceFirstChar '-' [] ('+' :: x) = '+' :: x := by
    apply replaceFirstChar_of_not_mem
    intro ch hm
    simp only [List.mem_cons] at hm
    rcases hm with rfl | hm'
    · decide
    · exact hxminus _ hm'
  have hstripp : replaceFirstChar '+' [] (replaceFirstChar '-' [] ('+' :: x)) = x := by
    rw [hinnerp]
    simp [replaceFirstChar]
  have hordp : hasChar '-' ('+' :: x) = false := by
    apply hasChar_eq_false
    intro ch hm
    simp only [List.mem_cons] at hm
    rcases hm with rfl | hm'
    · decide
    · exact hxminus _ hm'
  simp only [List.filterMap]
  rw [htrimm, htrimp]
  simp only [trimChars, List.dropWhile, List.reverse_nil, List.isEmpty_nil, if_true,
    List.isEmpty_cons, hstripm, hstripp, hordp, hasChar_cons_self]
  simp

/-- `handleShowIndexesQuery` on a single raw row: one descriptor whose fields
are that row's parsed COLNAMES. -/
theorem handleShowIndexesQuery_single (row : IndexRow) :
    handleShowIndexesQuery [row] =
      [{ primary := row.keyType = "P"
         fields := colnamesFields row.COLNAMES.toList
         name := row.name
         tableName := row.tableName
         unique := row.keyType = "U"
         indexType := row.indexType }] := by
  simp [handleShowIndexesQuery, pushIndexRow]

/-- `handleShowIndexesQuery` on two raw rows sharing an index name: one
descriptor — keyed by the first row's properties — whose fields are both rows'
parsed COLNAMES in order (the grouping of the `_.reduce` at query.js lines
426-448). -/
theorem handleShowIndexesQuery_pair (r1 r2 : IndexRow) (h : r2.name = r1.name) :
    handleShowIndexesQuery [r1, r2] =
      [{ primary := r1.keyType = "P"
         fields := colnamesFields r1.COLNAMES.toList ++ colnamesFields r2.COLNAMES.toList
         name := r1.name
         tableName := r1.tableName
         unique := r1.keyType = "U"
         indexType := r1.indexType }] := by
  simp [handleShowIndexesQuery, pushIndexRow, h]

/-! ## Claim theorems -/

/-- C7 (counterexample): the claim fails as stated.  For the raw row with
`COLNAMES = "+a+b"` — a sign-prefixed list of the two ascending columns `a`
and `b` — normalization does **not** yield one entry per listed column: JavaScript
`replace` with a string pattern rewrites only the first `'+'`, so the parse
yields the single entry `{attribute: "a+b", order: ASC}`. -/
theorem showIndexes_colnames_counterexample :
    handleShowIndexesQuery [⟨"iname", "t", "U", "REG", "+a+b"⟩] =
      [⟨false, [⟨"a+b", "ASC"⟩], "iname", "t", true, "REG"⟩] ∧
    handleShowIndexesQuery [⟨"iname", "t", "U", "REG", "+a+b"⟩] ≠
      [⟨false, [⟨"a", "ASC"⟩, ⟨"b", "ASC"⟩], "iname", "t", true, "REG"⟩] := by
  constructor
  · decide
  · decide

/-- C7 (amended): for every raw ShowIndexes row whose COLNAMES string is a
sign-prefixed column list **containing at most one `'+'`-prefixed and at most
one `'-'`-prefixed column** (column names free of sign and whitespace
characters), normalization yields one `{attribute, order}` entry per listed
column, in the listed order, ASC for the `'+'` column and DESC for the `'-'`
column, with entries grouped under their index name.  The conjuncts cover the
four such shapes — `+x-y`, `-y+x`, `+x`, `-y` — and the grouping of two rows
sharing an index name. -/
theorem showIndexes_colnames_amended (row : IndexRow) (x y : List Char)
    (hxs : ∀ ch ∈ x, ch ≠ '+' ∧ ch ≠ '-' ∧ isJsSpace ch = false)
    (hys : ∀ ch ∈ y, ch ≠ '+' ∧ ch ≠ '-' ∧ isJsSpace ch = false) :
    (row.COLNAMES = String.mk ('+' :: x ++ '-' :: y) →
      handleShowIndexesQuery [row] =
        [{ primary := row.keyType = "P"
           fields := [⟨String.mk x, "ASC"⟩, ⟨String.mk y, "DESC"⟩]
           name := row.name
           tableName := row.tableName
           unique := row.keyType = "U"
           indexType := row.indexType }]) ∧
    (row.COLNAMES = String.mk ('-' :: y ++ '+' :: x) →
      handleShowIndexesQuery [row] =
        [{ primary := row.keyType = "P"
           fields := [⟨String.mk y, "DESC"⟩, ⟨String.mk x, "ASC"⟩]
           name := row.name
           tableName := row.tableName
           unique := row.keyType = "U"
           indexType := row.indexType }]) ∧
    (row.COLNAMES = String.mk ('+' :: x) →
      handleShowIndexesQuery [row] =
        [{ primary := row.keyType = "P"
           fields := [⟨String.mk x, "ASC"⟩]
           name := row.name
           tableName := row.tableName
           unique := row.keyType = "U"
           indexType := row.indexType }]) ∧
    (row.COLNAMES = String.mk ('-' :: y) →
      handleShowIndexesQuery [row] =
        [{ primary := row.keyType = "P"
           fields := [⟨String.mk y, "DESC"⟩]
           name := row.name
           tableName := row.tableName
           unique := row.keyType = "U"
           indexType := row.indexType }]) ∧
    (∀ r2 : IndexRow, r2.name = row.name →
      row.COLNAMES = String.mk ('+' :: x ++ '-' :: y) →
      r2.COLNAMES = String.mk ('-' :: y ++ '+' :: x) →
      handleShowIndexesQuery [row, r2] =
        [{ primary := row.keyType = "P"
           fields := [⟨String.mk x, "ASC"⟩, ⟨String.mk y, "DESC"⟩,
                      ⟨String.mk y, "DESC"⟩, ⟨String.mk x, "ASC"⟩]
           name := row.name
           tableName := row.tableName
           unique := row.keyType = "U"
           indexType := row.indexType }]) := by
  refine ⟨fun hc => ?_, fun hc => ?_, fun hc => ?_, fun hc => ?_,
    fun r2 hn hc1 hc2 => ?_⟩
  · rw [handleShowIndexesQuery_single, hc,
      show (String.mk ('+' :: x ++ '-' :: y)).toList = '+' :: x ++ '-' :: y from rfl,
      colnamesFields_plus_minus x y hxs hys]
  · rw [handleShowIndexesQuery_single, hc,
      show (String.mk ('-' :: y ++ '+' :: x)).toList = '-' :: y ++ '+' :: x from rfl,
      colnamesFields_minus_plus x y hxs hys]
  · rw [handleShowIndexesQuery_single, hc,
      show (String.mk ('+' :: x)).toList = '+' :: x from rfl,
      colnamesFields_single_plus x hxs]
  · rw [handleShowIndexesQuery_single, hc,
      show (String.mk ('-' :: y)).toList = '-' :: y from rfl,
      colnamesFields_single_minus y hys]
  · rw [handleShowIndexesQuery_pair row r2 hn, hc1, hc2,
      show (String.mk ('+' :: x ++ '-' :: y)).toList = '+' :: x ++ '-' :: y from rfl,
      show (String.mk ('-' :: y ++ '+' :: x)).toList = '-' :: y ++ '+' :: x from rfl,
      colnamesFields_plus_minus x y hxs hys, colnamesFields_minus_plus x y hxs hys]
    rfl

/-- C7 (witness): the amended theorem at concrete inputs — a row with
`COLNAMES = "+b-a"` yields `[{attribute: b, ASC}, {attribute: a, DESC}]` (the
spec's example); a row with the reversed arrangement `"-a+b"` yields
`[{attribute: a, DESC}, {attribute: b, ASC}]`; and two rows under the index
name `"i"` with those COLNAMES group into one descriptor carrying all four
entries. -/
theorem showIndexes_colnames_witness :
    handleShowIndexesQuery [⟨"i", "t", "P", "REG", "+b-a"⟩] =
      [⟨true, [⟨"b", "ASC"⟩, ⟨"a", "DESC"⟩], "i", "t", false, "REG"⟩] ∧
    handleShowIndexesQuery [⟨"i2", "t2", "U", "REG", "-a+b"⟩] =
      [⟨false, [⟨"a", "DESC"⟩, ⟨"b", "ASC"⟩], "i2", "t2", true, "REG"⟩] ∧
    handleShowIndexesQuery [⟨"i", "t", "P", "REG", "+b-a"⟩, ⟨"i", "t", "P", "REG", "-a+b"⟩] =
      [⟨true, [⟨"b", "ASC"⟩, ⟨"a", "DESC"⟩, ⟨"a", "DESC"⟩, ⟨"b", "ASC"⟩],
        "i", "t", false, "REG"⟩] := by
  refine ⟨?_, ?_, ?_⟩
  · have h := (showIndexes_colnames_amended ⟨"i", "t", "P", "REG", "+b-a"⟩ ['b'] ['a']
      (by decide) (by decide)).1 (by decide)
    simpa using h
  · have h := (showIndexes_colnames_amended ⟨"i2", "t2", "U", "REG", "-a+b"⟩ ['b'] ['a']
      (by decide) (by decide)).2.1 (by decide)
    simpa using h
  · have h := (showIndexes_colnames_amended ⟨"i", "t", "P", "REG", "+b-a"⟩ ['b'] ['a']
      (by decide) (by decide)).2.2.2.2 ⟨"i", "t", "P", "REG", "-a+b"⟩ rfl (by decide)
      (by decide)
    simpa using h

/-! ### C3 / C4: upsert building -/

/-- C3: `upsertQuery` fails fast with the configuration error — no SQL is
built or handed to a driver — whenever every disjunct of the provided
where-clause disjunction contains at least one null-valued (or missing, i.e.
`undefined`) key component, so that no clause survives the null/partial
filter. -/
theorem upsert_null_clauses_config_error (esc : JsVal → String) (tableName : String)
    (insertValues updateValues : JsObj) (whereOr : List Clause) (model : UpsertModel)
    (h : ∀ c ∈ whereOr, ∃ kv ∈ c, kv.2.isNullish = true) :
    upsertQuery esc tableName insertValues updateValues whereOr model =
      Except.error "Primary Key or Unique key should be passed to upsert query" := by
  have hfe : filterClauses whereOr = [] := by
    unfold filterClauses
    rw [List.filter_eq_nil_iff]
    intro c hc
    obtain ⟨kv, hkv, hv⟩ := h c hc
    simp only [List.all_eq_true, not_forall]
    push_neg
    refine ⟨kv, hkv, ?_⟩
    cases h2 : kv.2 <;> simp_all [JsVal.truthy, JsVal.isNullish]
  simp only [upsertQuery, hfe]
  rfl

/-- C3 (witness): a concrete upsert whose two disjuncts both carry a
null/undefined component is rejected with the configuration error. -/
theorem upsert_null_clauses_config_error_witness :
    upsertQuery (fun _ => "") "T" [("id", JsVal.num 1)] []
      [[("id", JsVal.null)], [("a", JsVal.num 1), ("b", JsVal.undefined)]]
      ⟨[("id", ⟨none, true, false, false⟩)], []⟩ =
      Except.error "Primary Key or Unique key should be passed to upsert query" :=
  upsert_null_clauses_config_error _ _ _ _ _ _ (by decide)

theorem findPKClause_iff (pks : List String) (cs : List Clause) :
    findPKClause pks cs = true ↔
      ∃ c ∈ cs, ∃ kv, c.head? = some kv ∧ kv.1 ∈ pks := by
  induction cs with
  | nil => simp [findPKClause]
  | cons c rest ih =>
    cases hh : c.head? with
    | none =>
      have hstep : findPKClause pks (c :: rest) = findPKClause pks rest := by
        simp [findPKClause, hh]
      rw [hstep, ih]
      constructor
      · rintro ⟨c', hc', hkv⟩
        exact ⟨c', List.mem_cons_of_mem _ hc', hkv⟩
      · rintro ⟨c', hc', kv, hkv1, hkv2⟩
        rcases List.mem_cons.mp hc' with rfl | hc''
        · rw [hh] at hkv1
          cases hkv1
        · exact ⟨c', hc'', kv, hkv1, hkv2⟩
    | some kv =>
      by_cases hk : kv.1 ∈ pks
      · have hcont : pks.contains kv.1 = true := by
          rw [show pks.contains kv.1 = pks.elem kv.1 from rfl]
          exact List.elem_iff.mpr hk
        have hstep : findPKClause pks (c :: rest) = true := by
          simp only [findPKClause, hh, hcont]
          simp [hk]
        rw [hstep]
        simp only [true_iff]
        exact ⟨c, List.mem_cons_self _ _, kv, hh, hk⟩
      · have hcont : pks.contains kv.1 = false := by
          rw [show pks.contains kv.1 = pks.elem kv.1 from rfl]
          by_contra hne
          exact hk (List.elem_iff.mp (by simpa using hne))
        have hstep : findPKClause pks (c :: rest) = findPKClause pks rest := by
          simp only [findPKClause, hh, hcont]
          simp [hk]
        rw [hstep, ih]
        constructor
        · rintro ⟨c', hc', hkv⟩
          exact ⟨c', List.mem_cons_of_mem _ hc', hkv⟩
        · rintro ⟨c', hc', kv', hkv1, hkv2⟩
          rcases List.mem_cons.mp hc' with rfl | hc''
          · rw [hh] at hkv1
            cases hkv1
            exact absurd hkv2 hk
          · exact ⟨c', hc'', kv', hkv1, hkv2⟩

theorem mem_addIndexField (model : UpsertModel) (acc2 : List String)
    (f : IndexFieldRef) (a : String) :
    a ∈ addIndexField model acc2 f ↔
      a ∈ acc2 ∨
        (f.fieldName = some a ∧ (assocGetOpt model.rawAttributes a).isSome = true) := by
  cases hf : f.fieldName with
  | none =>
    have hred : addIndexField model acc2 f = acc2 := by
      simp [addIndexField, hf]
    rw [hred]
    simp
  | some nm =>
    have hred : addIndexField model acc2 f =
        if acc2.contains nm then acc2
        else if (assocGetOpt model.rawAttributes nm).isSome = true then acc2 ++ [nm]
        else acc2 := by
      simp [addIndexField, hf]
    rw [hred]
    by_cases hc : acc2.contains nm
    · rw [if_pos hc]
      have hmem : nm ∈ acc2 := List.elem_iff.mp hc
      constructor
      · exact Or.inl
      · rintro (ha | ⟨he, _⟩)
        · exact ha
        · cases he
          exact hmem
    · rw [if_neg hc]
      by_cases hr : (assocGetOpt model.rawAttributes nm).isSome = true
      · rw [if_pos hr]
        simp only [List.mem_append, List.mem_singleton]
        constructor
        · rintro (ha | rfl)
          · exact Or.inl ha
          · exact Or.inr ⟨rfl, hr⟩
        · rintro (ha | ⟨he, hr'⟩)
          · exact Or.inl ha
          · cases he
            exact Or.inr rfl
      · rw [if_neg hr]
        constructor
        · exact Or.inl
        · rintro (ha | ⟨he, hr'⟩)
          · exact ha
          · cases he
            exact absurd hr' hr

theorem mem_foldl_addIndexField (model : UpsertModel) (fls : List IndexFieldRef)
    (acc : List String) (a : String) :
    a ∈ fls.foldl (addIndexField model) acc ↔
      a ∈ acc ∨
        ∃ f ∈ fls, f.fieldName = some a ∧
          (assocGetOpt model.rawAttributes a).isSome = true := by
  induction fls generalizing acc with
  | nil => simp
  | cons f fls' ih =>
    rw [List.foldl_cons, ih, mem_addIndexField]
    constructor
    · rintro ((ha | hf) | ⟨f', hf', hp⟩)
      · exact Or.inl ha
      · exact Or.inr ⟨f, List.mem_cons_self _ _, hf⟩
      · exact Or.inr ⟨f', List.mem_cons_of_mem _ hf', hp⟩
    · rintro (ha | ⟨f', hf', hp⟩)
      · exact Or.inl (Or.inl ha)
      · rcases List.mem_cons.mp hf' with rfl | hf''
        · exact Or.inl (Or.inr hp)
        · exact Or.inr ⟨f', hf'', hp⟩

theorem mem_addIndexFields (model : UpsertModel) (acc : List String)
    (idx : ModelIndex) (a : String) :
    a ∈ addIndexFields model acc idx ↔
      a ∈ acc ∨
        (idx.unique = true ∧ ∃ fls, idx.fields = some fls ∧
          ∃ f ∈ fls, f.fieldName = some a ∧
            (assocGetOpt model.rawAttributes a).isSome = true) := by
  by_cases hu : idx.unique
  · cases hfs : idx.fields with
    | none =>
      have hred : addIndexFields model acc idx = acc := by
        simp [addIndexFields, hu, hfs]
      rw [hred]
      simp only [hu, true_and]
      constructor
      · exact Or.inl
      · rintro (ha | ⟨fls, hfls, _⟩)
        · exact ha
        · cases hfls
    | some fls =>
      have hred : addIndexFields model acc idx = fls.foldl (addIndexField model) acc := by
        simp [addIndexFields, hu, hfs]
      rw [hred, mem_foldl_addIndexField]
      simp only [hu, true_and]
      constructor
      · rintro (ha | hp)
        · exact Or.inl ha
        · exact Or.inr ⟨fls, rfl, hp⟩
      · rintro (ha | ⟨fls', hfls', hp⟩)
        · exact Or.inl ha
        · cases hfls'
          exact Or.inr hp
  · have hred : addIndexFields model acc idx = acc := by
      simp only [addIndexFields, Bool.not_eq_true] at hu ⊢
      rw [hu]
      rfl
    rw [hred]
    constructor
    · exact Or.inl
    · rintro (ha | ⟨hu', _⟩)
      · exact ha
      · exact absurd hu' hu

theorem mem_addUniqueIndexFields (model : UpsertModel) (idxs : List ModelIndex)
    (init : List String) (a : String) :
    a ∈ idxs.foldl (addIndexFields model) init ↔
      a ∈ init ∨
        ∃ idx ∈ idxs, idx.unique = true ∧ ∃ fls, idx.fields = some fls ∧
          ∃ f ∈ fls, f.fieldName = some a ∧
            (assocGetOpt model.rawAttributes a).isSome = true := by
  induction idxs generalizing init with
  | nil => simp
  | cons idx idxs' ih =>
    rw [List.foldl_cons, ih, mem_addIndexFields]
    constructor
    · rintro ((ha | hp) | ⟨idx', hidx', hp'⟩)
      · exact Or.inl ha
      · exact Or.inr ⟨idx, List.mem_cons_self _ _, hp⟩
      · exact Or.inr ⟨idx', List.mem_cons_of_mem _ hidx', hp'⟩
    · rintro (ha | ⟨idx', hidx', hp'⟩)
      · exact Or.inl (Or.inl ha)
      · rcases List.mem_cons.mp hidx' with rfl | hidx''
        · exact Or.inl (Or.inr hp')
        · exact Or.inr ⟨idx', hidx'', hp'⟩

/-- C4: join-condition selection of `upsertQuery`.  With at least one
surviving disjunct, (a) if some surviving disjunct is keyed by a primary-key
attribute the MERGE joins over all primary-key columns — even when
unique-keyed disjuncts are also present; (b) otherwise it joins over the full
set of unique attributes; and (c) that set consists exactly of the declared
unique attributes plus the attributes participating in a declared unique
index. -/
theorem upsert_join_selection (esc : JsVal → String) (tableName : String)
    (insertValues updateValues : JsObj) (whereOr : List Clause) (model : UpsertModel)
    (hne : filterClauses whereOr ≠ []) :
    ((∃ c ∈ filterClauses whereOr, ∃ kv, c.head? = some kv ∧
        kv.1 ∈ primaryKeysAttrsOf model) →
      upsertQuery esc tableName insertValues updateValues whereOr model =
        Except.ok (upsertMergeQuery esc tableName insertValues updateValues model
          (primaryKeysAttrsOf model))) ∧
    ((¬ ∃ c ∈ filterClauses whereOr, ∃ kv, c.head? = some kv ∧
        kv.1 ∈ primaryKeysAttrsOf model) →
      upsertQuery esc tableName insertValues updateValues whereOr model =
        Except.ok (upsertMergeQuery esc tableName insertValues updateValues model
          (upsertUniqueAttrs model))) ∧
    (∀ a, a ∈ upsertUniqueAttrs model ↔
      (a ∈ declaredUniqueAttrsOf model ∨
        ∃ idx ∈ model.indexes, idx.unique = true ∧ ∃ fls, idx.fields = some fls ∧
          ∃ f ∈ fls, f.fieldName = some a ∧
            (assocGetOpt model.rawAttributes a).isSome = true)) := by
  have hempty : (filterClauses whereOr).isEmpty = false := by
    rw [List.isEmpty_eq_false_iff_exists_mem]
    cases hcs : filterClauses whereOr with
    | nil => exact absurd hcs hne
    | cons c cs => exact ⟨c, List.mem_cons_self _ _⟩
  refine ⟨fun hpk => ?_, fun hpk => ?_, fun a => ?_⟩
  · have hfind : findPKClause (primaryKeysAttrsOf model) (filterClauses whereOr) = true :=
      (findPKClause_iff _ _).mpr hpk
    simp only [upsertQuery, hempty, Bool.false_eq_true, if_false, hfind, if_true]
  · have hfind : findPKClause (primaryKeysAttrsOf model) (filterClauses whereOr) = false := by
      by_contra hcon
      exact hpk ((findPKClause_iff _ _).mp (by simpa using hcon))
    simp only [upsertQuery, hempty, Bool.false_eq_true, if_false, hfind, if_true]
  · exact mem_addUniqueIndexFields model model.indexes (declaredUniqueAttrsOf model) a

/-- C4 (witness): a model with unique attribute `code` and primary key `id`;
with surviving disjuncts keyed by `code` and by `id`, the join is over the
primary key. -/
theorem upsert_join_selection_witness :
    upsertQuery (fun _ => "v") "T" [("id", JsVal.num 1)] []
      [[("code", JsVal.str "c")], [("id", JsVal.num 1)]]
      ⟨[("id", ⟨none, true, false, false⟩), ("code", ⟨none, false, true, false⟩)], []⟩ =
      Except.ok (upsertMergeQuery (fun _ => "v") "T" [("id", JsVal.num 1)] []
        ⟨[("id", ⟨none, true, false, false⟩), ("code", ⟨none, false, true, false⟩)], []⟩
        ["id"]) := by
  have h := (upsert_join_selection (fun _ => "v") "T" [("id", JsVal.num 1)] []
    [[("code", JsVal.str "c")], [("id", JsVal.num 1)]]
    ⟨[("id", ⟨none, true, false, false⟩), ("code", ⟨none, false, true, false⟩)], []⟩
    (by decide)).1 (by decide)
  simpa using h

/-! ### C5 / C6: update and insert building -/

/-- C5: without a (truthy) row limit, `updateQuery` returns the base-layer
UPDATE statement wrapped as `SELECT * FROM FINAL TABLE (…)` with its binds
untouched; with a row limit it instead builds an UPDATE whose target is the
derived subquery `SELECT * FROM <table> <where> FETCH NEXT <limit> ROWS ONLY`
(the dialect forbids a limit directly on UPDATE), itself wrapped in
`SELECT * FROM FINAL TABLE (…)`. -/
theorem update_limit_shapes (esc : JsVal → String) (base : UpdateResult)
    (tableName : String) (attrValueHash : JsObj) (whereSQL : String) (limit : JsVal)
    (bindParamFalse : Bool) (omitNull : Bool) :
    (limit.truthy = false →
      updateQuery esc base tableName attrValueHash whereSQL limit bindParamFalse omitNull =
        { base with query := "SELECT * FROM FINAL TABLE (" ++ base.query ++ ")" }) ∧
    (limit.truthy = true →
      ∃ setSQL binds,
        updateQuery esc base tableName attrValueHash whereSQL limit bindParamFalse omitNull =
          ⟨"SELECT * FROM FINAL TABLE (" ++
            ("UPDATE (SELECT * FROM " ++ quoteTable tableName ++ " " ++ whereSQL ++
              " FETCH NEXT " ++ esc limit ++ " ROWS ONLY) SET " ++ setSQL) ++ ")",
            binds⟩) := by
  constructor
  · intro h
    unfold updateQuery
    rw [h]
    rfl
  · intro h
    unfold updateQuery
    rw [h]
    exact ⟨_, _, rfl⟩

/-- C5 (witness): the two shapes at concrete inputs — no limit wraps the base
query unchanged; limit 10 targets the derived `FETCH NEXT` subquery. -/
theorem update_limit_shapes_witness :
    updateQuery (fun _ => "10") ⟨"U", []⟩ "T" [("a", JsVal.num 2)] "WHERE x"
        JsVal.undefined false false = ⟨"SELECT * FROM FINAL TABLE (U)", []⟩ ∧
    ∃ setSQL binds,
      updateQuery (fun _ => "10") ⟨"U", []⟩ "T" [("a", JsVal.num 2)] "WHERE x"
          (JsVal.num 10) false false =
        ⟨"SELECT * FROM FINAL TABLE (" ++
          ("UPDATE (SELECT * FROM " ++ quoteTable "T" ++ " " ++ "WHERE x" ++
            " FETCH NEXT " ++ (fun (_ : JsVal) => "10") (JsVal.num 10) ++
            " ROWS ONLY) SET " ++ setSQL) ++ ")", binds⟩ :=
  ⟨(update_limit_shapes (fun _ => "10") ⟨"U", []⟩ "T" [("a", JsVal.num 2)] "WHERE x"
      JsVal.undefined false false).1 rfl,
   (update_limit_shapes (fun _ => "10") ⟨"U", []⟩ "T" [("a", JsVal.num 2)] "WHERE x"
      (JsVal.num 10) false false).2 rfl⟩

/-- C6: when the value-rendering loop leaves no columns (the attribute map has
zero remaining columns), `insertQuery` emits exactly one synthetic value drawn
from the per-generator counter inside the VALUES clause, and two successive
such builds from the same generator state use strictly increasing, distinct
counter values. -/
theorem insert_empty_synthetic_counter (sup : DialectSupports) (esc : JsVal → String)
    (st : GenState) (table : String) (valueHash1 valueHash2 : JsObj)
    (modelAttributes : Option (List (String × RawAttr))) (options : InsertOptions)
    (hsup : sup.valuesEmpty = true)
    (hig : options.ignoreDuplicates = false)
    (hod : options.onDuplicate = none)
    (h1 : (insertLoop sup esc options.bindParam (modelAttributeMapOf modelAttributes)
      (removeNullValuesFromHash valueHash1 options.omitNull)).fields = [])
    (h2 : (insertLoop sup esc options.bindParam (modelAttributeMapOf modelAttributes)
      (removeNullValuesFromHash valueHash2 options.omitNull)).fields = []) :
    ((insertQuery sup esc st table valueHash1 modelAttributes options).1.query =
      "SELECT * FROM FINAL TABLE(INSERT INTO " ++ quoteTable table ++
        " VALUES (" ++ toString st.autoGenValue ++ "));") ∧
    ((insertQuery sup esc
        ((insertQuery sup esc st table valueHash1 modelAttributes options).2)
        table valueHash2 modelAttributes options).1.query =
      "SELECT * FROM FINAL TABLE(INSERT INTO " ++ quoteTable table ++
        " VALUES (" ++
        toString ((insertQuery sup esc st table valueHash1 modelAttributes options).2.autoGenValue)
        ++ "));") ∧
    st.autoGenValue <
      ((insertQuery sup esc st table valueHash1 modelAttributes options).2.autoGenValue) ∧
    st.autoGenValue ≠
      ((insertQuery sup esc st table valueHash1 modelAttributes options).2.autoGenValue) := by
  have hstep : ∀ st' : GenState, ∀ vh : JsObj,
      (insertLoop sup esc options.bindParam (modelAttributeMapOf modelAttributes)
        (removeNullValuesFromHash vh options.omitNull)).fields = [] →
      (insertQuery sup esc st' table vh modelAttributes options).1.query =
        "SELECT * FROM FINAL TABLE(INSERT INTO " ++ quoteTable table ++
          " VALUES (" ++ toString st'.autoGenValue ++ "));" ∧
      (insertQuery sup esc st' table vh modelAttributes options).2.autoGenValue =
        st'.autoGenValue + 1 := by
    intro st' vh hl
    constructor
    · simp only [insertQuery, hig, hod, hsup, hl, if_false, Bool.false_eq_true]
      have hi : (",".intercalate ([] : List String)) = "" := rfl
      rw [hi]
      simp only [show (("" : String).length != 0) = false from rfl, Bool.false_eq_true,
        if_false]
      apply String.ext
      simp [String.data_append]
    · simp [insertQuery, hsup]
  refine ⟨(hstep st valueHash1 h1).1, (hstep _ valueHash2 h2).1, ?_, ?_⟩
  · rw [(hstep st valueHash1 h1).2]
    exact Nat.lt_succ_self _
  · rw [(hstep st valueHash1 h1).2]
    exact Nat.ne_of_lt (Nat.lt_succ_self _)

/-- C6 (witness): two successive empty-map builds from counter 5 produce
`VALUES (5)` then `VALUES (6)`. -/
theorem insert_empty_synthetic_counter_witness :
    ((insertQuery ⟨true, false, "", true, true⟩ (fun _ => "v") ⟨5⟩ "T" [] none {}).1.query =
      "SELECT * FROM FINAL TABLE(INSERT INTO " ++ quoteTable "T" ++ " VALUES (" ++
        toString (5 : Nat) ++ "));") ∧
    ((insertQuery ⟨true, false, "", true, true⟩ (fun _ => "v")
        ((insertQuery ⟨true, false, "", true, true⟩ (fun _ => "v") ⟨5⟩ "T" [] none {}).2)
        "T" [] none {}).1.query =
      "SELECT * FROM FINAL TABLE(INSERT INTO " ++ quoteTable "T" ++ " VALUES (" ++
        toString ((insertQuery ⟨true, false, "", true, true⟩ (fun _ => "v") ⟨5⟩ "T" []
          none {}).2.autoGenValue) ++ "));") ∧
    (5 : Nat) <
      (insertQuery ⟨true, false, "", true, true⟩ (fun _ => "v") ⟨5⟩ "T" [] none {}).2.autoGenValue ∧
    (5 : Nat) ≠
      (insertQuery ⟨true, false, "", true, true⟩ (fun _ => "v") ⟨5⟩ "T" [] none {}).2.autoGenValue :=
  insert_empty_synthetic_counter ⟨true, false, "", true, true⟩ (fun _ => "v") ⟨5⟩ "T" [] []
    none {} rfl rfl rfl rfl rfl

/-! ### C2 / C9: the execution adapter -/

/-- C2: the benign-code suppression of `_run`.  A driver error whose message
carries SQL0204N is suppressed (success with an empty result) when the SQL
text starts with `DROP `; SQL0443N, SQL0601N and SQL0911N-with-`Reason code
"2"` are suppressed unconditionally, and SQL0605W is suppressed provided the
message does not also carry SQL0911N without the reason code (the `else if`
cascade stops there).  A message carrying none of the five codes — and the
only-when conditions failing for SQL0204N and SQL0911N — is propagated with
the statement text attached for the error translator. -/
theorem benign_error_suppression (msg sqlText : String) :
    (containsSub "SQL0204N".toList msg.toList = true →
      "DROP ".toList.isPrefixOf sqlText.toList = true →
      handleExecuteError msg sqlText = ExecOutcome.suppressed) ∧
    (containsSub "SQL0443N".toList msg.toList = true →
      handleExecuteError msg sqlText = ExecOutcome.suppressed) ∧
    (containsSub "SQL0601N".toList msg.toList = true →
      handleExecuteError msg sqlText = ExecOutcome.suppressed) ∧
    (containsSub "SQL0911N".toList msg.toList = true →
      containsSub "Reason code \"2\"".toList msg.toList = true →
      handleExecuteError msg sqlText = ExecOutcome.suppressed) ∧
    (containsSub "SQL0605W".toList msg.toList = true →
      (containsSub "SQL0911N".toList msg.toList = true →
        containsSub "Reason code \"2\"".toList msg.toList = true) →
      handleExecuteError msg sqlText = ExecOutcome.suppressed) ∧
    (containsSub "SQL0204N".toList msg.toList = false →
      containsSub "SQL0443N".toList msg.toList = false →
      containsSub "SQL0601N".toList msg.toList = false →
      containsSub "SQL0911N".toList msg.toList = false →
      containsSub "SQL0605W".toList msg.toList = false →
      handleExecuteError msg sqlText =
        ExecOutcome.translated { message := some msg, sql := some sqlText }) ∧
    (containsSub "SQL0204N".toList msg.toList = true →
      "DROP ".toList.isPrefixOf sqlText.toList = false →
      containsSub "SQL0443N".toList msg.toList = false →
      containsSub "SQL0601N".toList msg.toList = false →
      containsSub "SQL0911N".toList msg.toList = false →
      containsSub "SQL0605W".toList msg.toList = false →
      handleExecuteError msg sqlText =
        ExecOutcome.translated { message := some msg, sql := some sqlText }) ∧
    ((containsSub "SQL0204N".toList msg.toList = true →
        "DROP ".toList.isPrefixOf sqlText.toList = false) →
      containsSub "SQL0443N".toList msg.toList = false →
      containsSub "SQL0601N".toList msg.toList = false →
      containsSub "SQL0911N".toList msg.toList = true →
      containsSub "Reason code \"2\"".toList msg.toList = false →
      handleExecuteError msg sqlText =
        ExecOutcome.translated { message := some msg, sql := some sqlText }) := by
  refine ⟨?_, ?_, ?_, ?_, ?_, ?_, ?_, ?_⟩
  · intro h1 h2
    simp_all [handleExecuteError, benignNull]
  · intro h
    by_cases h204 : containsSub "SQL0204N".toList msg.toList = true <;>
      by_cases hdrop : "DROP ".toList.isPrefixOf sqlText.toList = true <;>
        simp_all [handleExecuteError, benignNull]
  · intro h
    by_cases h204 : containsSub "SQL0204N".toList msg.toList = true <;>
      by_cases hdrop : "DROP ".toList.isPrefixOf sqlText.toList = true <;>
        by_cases h443 : containsSub "SQL0443N".toList msg.toList = true <;>
          simp_all [handleExecuteError, benignNull]
  · intro h911 hr
    by_cases h204 : containsSub "SQL0204N".toList msg.toList = true <;>
      by_cases hdrop : "DROP ".toList.isPrefixOf sqlText.toList = true <;>
        by_cases h443 : containsSub "SQL0443N".toList msg.toList = true <;>
          by_cases h601 : containsSub "SQL0601N".toList msg.toList = true <;>
            simp_all [handleExecuteError, benignNull]
  · intro h605 himp
    by_cases h204 : containsSub "SQL0204N".toList msg.toList = true <;>
      by_cases hdrop : "DROP ".toList.isPrefixOf sqlText.toList = true <;>
        by_cases h443 : containsSub "SQL0443N".toList msg.toList = true <;>
          by_cases h601 : containsSub "SQL0601N".toList msg.toList = true <;>
            by_cases h911 : containsSub "SQL0911N".toList msg.toList = true <;>
              simp_all [handleExecuteError, benignNull]
  · intro h1 h2 h3 h4 h5
    simp_all [handleExecuteError, benignNull]
  · intro h1 h2 h3 h4 h5 h6
    simp_all [handleExecuteError, benignNull]
  · intro hnd h443 h601 h911 hr
    by_cases h204 : containsSub "SQL0204N".toList msg.toList = true <;>
      simp_all [handleExecuteError, benignNull]

/-- C2 (witness): a DROP TABLE statement whose driver error carries the
table-not-found code resolves as empty success; a non-benign error on a
non-DROP statement is propagated with the statement text attached. -/
theorem benign_error_suppression_witness :
    handleExecuteError "SQL0204N  \"X\" is an undefined name." "DROP TABLE X;" =
      ExecOutcome.suppressed ∧
    handleExecuteError "SQL0104N  syntax error" "SELECT 1" =
      ExecOutcome.translated
        { message := some "SQL0104N  syntax error", sql := some "SELECT 1" } :=
  ⟨(benign_error_suppression "SQL0204N  \"X\" is an undefined name." "DROP TABLE X;").1
      (by decide) (by decide),
   (((((benign_error_suppression "SQL0104N  syntax error" "SELECT 1").2).2).2).2).2.1
      (by decide) (by decide) (by decide) (by decide) (by decide)⟩

/-- C9: a statement whose text begins with `SAVE TRANSACTION` never reaches
the prepare/execute path — no `prepare` call appears in the driver trace.
The adapter calls `commitTransaction` with the transaction's savepoint name
and, only on its success, `beginTransaction`; it resolves with the formatted
empty result after both succeed and rejects with the translated error if
either fails. -/
theorem save_transaction_dispatch (conn : Conn) (rest : List Char)
    (transactionName : String) :
    (∀ s, DriverCall.prepare s ∉
      (runDispatch conn ("SAVE TRANSACTION".toList ++ rest) transactionName).2) ∧
    (∀ e, conn.commitTransactionErr (some transactionName) = some e →
      runDispatch conn ("SAVE TRANSACTION".toList ++ rest) transactionName =
        (RunOutcome.rejected e, [DriverCall.commitTransaction (some transactionName)])) ∧
    (conn.commitTransactionErr (some transactionName) = none →
      ∀ e, conn.beginTransactionErr = some e →
      runDispatch conn ("SAVE TRANSACTION".toList ++ rest) transactionName =
        (RunOutcome.rejected e,
          [DriverCall.commitTransaction (some transactionName),
           DriverCall.beginTransaction])) ∧
    (conn.commitTransactionErr (some transactionName) = none →
      conn.beginTransactionErr = none →
      runDispatch conn ("SAVE TRANSACTION".toList ++ rest) transactionName =
        (RunOutcome.resolvedEmpty,
          [DriverCall.commitTransaction (some transactionName),
           DriverCall.beginTransaction])) := by
  have hred : runDispatch conn ("SAVE TRANSACTION".toList ++ rest) transactionName =
      match conn.commitTransactionErr (some transactionName) with
      | some e => (RunOutcome.rejected e, [DriverCall.commitTransaction (some transactionName)])
      | none =>
        match conn.beginTransactionErr with
        | some e =>
          (RunOutcome.rejected e,
            [DriverCall.commitTransaction (some transactionName), DriverCall.beginTransaction])
        | none =>
          (RunOutcome.resolvedEmpty,
            [DriverCall.commitTransaction (some transactionName), DriverCall.beginTransaction]) :=
    rfl
  refine ⟨?_, ?_, ?_, ?_⟩
  · intro s
    rw [hred]
    cases hc : conn.commitTransactionErr (some transactionName) with
    | some e => simp
    | none =>
      cases hb : conn.beginTransactionErr with
      | some e => simp
      | none => simp
  · intro e hc
    rw [hred, hc]
  · intro hc e hb
    rw [hred, hc, hb]
  · intro hc hb
    rw [hred, hc, hb]

/-- C9 (witness): with a connection whose primitives succeed, a
`SAVE TRANSACTION` statement commits to the savepoint name, re-begins, and
resolves empty with no `prepare` in the trace. -/
theorem save_transaction_dispatch_witness :
    runDispatch ⟨none, fun _ => none, none⟩ ("SAVE TRANSACTION".toList ++ " \"sp\";".toList)
        "sp" =
      (RunOutcome.resolvedEmpty,
        [DriverCall.commitTransaction (some "sp"), DriverCall.beginTransaction]) ∧
    DriverCall.prepare "SAVE TRANSACTION \"sp\";" ∉
      (runDispatch ⟨none, fun _ => none, none⟩
        ("SAVE TRANSACTION".toList ++ " \"sp\";".toList) "sp").2 :=
  ⟨((save_transaction_dispatch ⟨none, fun _ => none, none⟩ " \"sp\";".toList "sp").2.2.2)
      rfl rfl,
   (save_transaction_dispatch ⟨none, fun _ => none, none⟩ " \"sp\";".toList "sp").1
      "SAVE TRANSACTION \"sp\";"⟩

/-! ### C8: insert-id assignment -/

/-- C8: with a bound instance, the generated id is resolved by trying, in this
exact order, the first row's `id` field, the metadata `id` field, the first
row's raw auto-increment attribute value, and the first row's aliased field
value; the first truthy ("non-empty") candidate wins and is written onto the
instance's auto-increment attribute, and when every candidate is absent
(nullish) a nullish value is assigned — no error is raised (the function is
total). -/
theorem insert_id_assignment (results? : Option (List JsObj)) (metaData? : Option JsObj)
    (model : InsertModel) (inst : JsObj) :
    ∃ idv,
      handleInsertQuery results? metaData? model (some inst) =
        some (jsSet inst model.autoIncrementAttribute idv) ∧
      ((firstRowGet results? "id").truthy = true → idv = firstRowGet results? "id") ∧
      ((firstRowGet results? "id").truthy = false →
        (match metaData? with
          | some md => jsGet md "id"
          | none => JsVal.undefined).truthy = true →
        idv = (match metaData? with
          | some md => jsGet md "id"
          | none => JsVal.undefined)) ∧
      ((firstRowGet results? "id").truthy = false →
        (match metaData? with
          | some md => jsGet md "id"
          | none => JsVal.undefined).truthy = false →
        (firstRowGet results? model.autoIncrementAttribute).truthy = true →
        idv = firstRowGet results? model.autoIncrementAttribute) ∧
      ((firstRowGet results? "id").truthy = false →
        (match metaData? with
          | some md => jsGet md "id"
          | none => JsVal.undefined).truthy = false →
        (firstRowGet results? model.autoIncrementAttribute).truthy = false →
        idv = (match (match assocGetOpt model.rawAttributes model.autoIncrementAttribute with
          | some attr => attr.field
          | none => none) with
          | some al => if al.isEmpty then JsVal.undefined else firstRowGet results? al
          | none => JsVal.undefined)) ∧
      ((firstRowGet results? "id").isNullish = true →
        (match metaData? with
          | some md => jsGet md "id"
          | none => JsVal.undefined).isNullish = true →
        (firstRowGet results? model.autoIncrementAttribute).isNullish = true →
        (match (match assocGetOpt model.rawAttributes model.autoIncrementAttribute with
          | some attr => attr.field
          | none => none) with
          | some al => if al.isEmpty then JsVal.undefined else firstRowGet results? al
          | none => JsVal.undefined).isNullish = true →
        idv.isNullish = true) := by
  have hnf : ∀ v : JsVal, v.isNullish = true → v.truthy = false := by
    intro v hv
    cases v <;> simp_all [JsVal.isNullish, JsVal.truthy]
  have hnull : JsVal.null.truthy = false := rfl
  refine ⟨_, rfl, ?_, ?_, ?_, ?_, ?_⟩
  · intro h1
    simp [jsOr, hnull, h1]
  · intro h1 h2
    simp [jsOr, hnull, h1, h2]
  · intro h1 h2 h3
    simp [jsOr, hnull, h1, h2, h3]
  · intro h1 h2 h3
    simp [jsOr, hnull, h1, h2, h3]
  · intro h1 h2 h3 h4
    simp [jsOr, hnull, hnf _ h1, hnf _ h2, hnf _ h3, h4]

/-- C8 (witness): with the auto-increment attribute `id` aliased to the column
`ID` and a first result row `{ID: 7}`, the aliased-field candidate wins and
`7` is written onto the instance's `id`. -/
theorem insert_id_assignment_witness :
    handleInsertQuery (some [[("ID", JsVal.num 7)]]) none
        ⟨"id", [("id", ⟨some "ID", false, false, true⟩)]⟩
        (some [("name", JsVal.str "n")]) =
      some (jsSet [("name", JsVal.str "n")] "id" (JsVal.num 7)) := by
  obtain ⟨idv, heq, _, _, _, h4, _⟩ := insert_id_assignment (some [[("ID", JsVal.num 7)]])
    none ⟨"id", [("id", ⟨some "ID", false, false, true⟩)]⟩ [("name", JsVal.str "n")]
  have hidv : idv = JsVal.num 7 := by
    have h := h4 (by decide) (by decide) (by decide)
    rw [h]
    decide
  rw [heq, hidv]

/-! ### C10: the dead fallback in formatError -/

/-- C10: the fallback branch substituting `"No error message found."` is
unreachable for every non-null error argument — the guard `!(err ||
err.message)` evaluates to `false` as soon as `err` is truthy, never reading
`message` — and consequently, a non-null error whose `message` property is
undefined makes `formatError` itself throw (on `err.message.match`) instead of
returning a semantic error. -/
theorem format_error_fallback_unreachable (e : ErrObj) (model? : Option ModelInfo)
    (opts : QueryOptions) (conn? : Option CatalogConn)
    (parameters? : Option (List JsVal)) :
    formatErrorGuard (some e) = Except.ok false ∧
    (e.message = none →
      formatError model? opts (some e) conn? parameters? =
        Except.error "TypeError: Cannot read properties of undefined (reading 'match')") := by
  constructor
  · rfl
  · intro hm
    obtain ⟨m, s⟩ := e
    cases hm
    rfl

/-- C10 (witness): the error object with no `message` and no `sql` keeps the
guard false and makes `formatError` throw. -/
theorem format_error_fallback_unreachable_witness :
    formatErrorGuard (some ⟨none, none⟩) = Except.ok false ∧
    formatError none {} (some ⟨none, none⟩) none none =
      Except.error "TypeError: Cannot read properties of undefined (reading 'match')" :=
  ⟨(format_error_fallback_unreachable ⟨none, none⟩ none {} none none).1,
   (format_error_fallback_unreachable ⟨none, none⟩ none {} none none).2 rfl⟩

/-! ### C1: unique-violation translation -/

/-- C1: a driver error whose message matches the unique-violation pattern is
translated to a `UniqueConstraintError`.  With the real index name resolved
through the catalog query on the live connection and mapped to a unique key
(the model's declared key, else the positional fallback from the insert's
field list — both captured by the `resolveUniqueKey` hypothesis), the
offending value is attributed in this exact order: the where-clause value for
the key's column, else the bound instance's (truthy) current value for that
column, else the first positional parameter.  One field-level violation entry
is emitted per resolved field, and the error message is the unique key's
custom message when declared (truthy), else the raw driver message. -/
theorem unique_violation_translation (model? : Option ModelInfo) (opts : QueryOptions)
    (conn : CatalogConn) (parameters? : Option (List JsVal)) (e : ErrObj) (msg : String)
    (d : Nat) (sch tab : String) (kl : KeyLike) (c : String)
    (hm : e.message = some msg)
    (h803 : sql0803Match msg = some (d, sch, tab))
    (hk : resolveUniqueKey model? opts.fields (some conn) d sch tab =
      Except.ok (some kl))
    (hc : kl.columnOpt = some c) :
    ∃ fields errors msgOut,
      formatError model? opts (some e) (some conn) parameters? =
        Except.ok (SemanticError.uniqueConstraint msgOut errors fields e) ∧
      (∀ v, whereHitOf opts (some c) = some v → fields = [(some c, v)]) ∧
      (whereHitOf opts (some c) = none →
        ∀ v, instanceHitOf opts (some c) = some v → fields = [(some c, v)]) ∧
      (whereHitOf opts (some c) = none → instanceHitOf opts (some c) = none →
        ∀ ps, parameters? = some ps → fields = [(some c, (ps.head?).getD JsVal.undefined)]) ∧
      (whereHitOf opts (some c) = none → instanceHitOf opts (some c) = none →
        parameters? = none → fields = []) ∧
      errors = fields.map (fun p =>
        { message := getUniqueConstraintErrorMessage p.1, field := p.1, value := p.2 }) ∧
      msgOut = (match kl.msgOpt with
        | some m => if m.isEmpty then msg else m
        | none => msg) := by
  obtain ⟨m0, s0⟩ := e
  cases hm
  have hfe : formatError model? opts (some ⟨some msg, s0⟩) (some conn) parameters? =
      translateMessage model? opts ⟨some msg, s0⟩ msg (some conn) parameters? := rfl
  have htr : translateMessage model? opts ⟨some msg, s0⟩ msg (some conn) parameters? =
      Except.ok (SemanticError.uniqueConstraint
        (match kl.msgOpt with
          | some m => if m.isEmpty then msg else m
          | none => msg)
        ((attributeFields opts parameters? (some kl)).map (fun p =>
          { message := getUniqueConstraintErrorMessage p.1, field := p.1, value := p.2 }))
        (attributeFields opts parameters? (some kl)) ⟨some msg, s0⟩) := by
    simp only [translateMessage, h803, hk]
    rfl
  have hfields : attributeFields opts parameters? (some kl) =
      match whereHitOf opts (some c) with
      | some v => [(some c, v)]
      | none =>
        match instanceHitOf opts (some c) with
        | some v => [(some c, v)]
        | none =>
          match parameters? with
          | some ps => [(some c, (ps.head?).getD JsVal.undefined)]
          | none => [] := by
    simp only [attributeFields, hc]
  refine ⟨attributeFields opts parameters? (some kl), _, _, hfe.trans htr,
    ?_, ?_, ?_, ?_, rfl, rfl⟩
  · intro v hv
    rw [hfields, hv]
  · intro hw v hv
    rw [hfields, hw, hv]
  · intro hw hi ps hps
    rw [hfields, hw, hi, hps]
  · intro hw hi hps
    rw [hfields, hw, hi, hps]

set_option maxRecDepth 16384 in
/-- C1 (witness): the spec's concrete scenario — a raw SQL0803N message with
index id `2` on table `S.T`, a catalog resolving index 2 to `IDX_EMAIL`, a
model whose declared unique key `IDX_EMAIL` resolves to column `email` with no
custom message, and a where-clause `email: "x@y.com"` — yields a
`UniqueConstraintError` with the single field entry `email -> "x@y.com"`, one
violation item, and the raw message. -/
theorem unique_violation_translation_witness :
    formatError
      (some ⟨fun n => if n = "IDX_EMAIL" then some (KeyLike.obj (some "email") none)
        else none⟩)
      { whereOpt := some [("email", JsVal.str "x@y.com")] }
      (some ⟨some ("SQL0803N  One or more values in the INSERT statement, UPDATE " ++
        "statement, or foreign key update caused by a DELETE statement are not valid " ++
        "because the primary key, unique constraint or unique index identified by \"2\" " ++
        "constrains table \"S.T\" from having duplicate values for the index key."),
        none⟩)
      (some ⟨fun _ => [[("INDNAME", JsVal.str "IDX_EMAIL")]]⟩) none =
      Except.ok (SemanticError.uniqueConstraint
        ("SQL0803N  One or more values in the INSERT statement, UPDATE " ++
          "statement, or foreign key update caused by a DELETE statement are not valid " ++
          "because the primary key, unique constraint or unique index identified by \"2\" " ++
          "constrains table \"S.T\" from having duplicate values for the index key.")
        [{ message := getUniqueConstraintErrorMessage (some "email"),
           field := some "email", value := JsVal.str "x@y.com" }]
        [(some "email", JsVal.str "x@y.com")]
        ⟨some ("SQL0803N  One or more values in the INSERT statement, UPDATE " ++
          "statement, or foreign key update caused by a DELETE statement are not valid " ++
          "because the primary key, unique constraint or unique index identified by \"2\" " ++
          "constrains table \"S.T\" from having duplicate values for the index key."),
          none⟩) := by
  obtain ⟨fields, errors, msgOut, heq, hwh, _, _, _, herr, hmsg⟩ :=
    unique_violation_translation
      (some ⟨fun n => if n = "IDX_EMAIL" then some (KeyLike.obj (some "email") none)
        else none⟩)
      { whereOpt := some [("email", JsVal.str "x@y.com")] }
      ⟨fun _ => [[("INDNAME", JsVal.str "IDX_EMAIL")]]⟩ none
      ⟨some ("SQL0803N  One or more values in the INSERT statement, UPDATE " ++
        "statement, or foreign key update caused by a DELETE statement are not valid " ++
        "because the primary key, unique constraint or unique index identified by \"2\" " ++
        "constrains table \"S.T\" from having duplicate values for the index key."),
        none⟩
      ("SQL0803N  One or more values in the INSERT statement, UPDATE " ++
        "statement, or foreign key update caused by a DELETE statement are not valid " ++
        "because the primary key, unique constraint or unique index identified by \"2\" " ++
        "constrains table \"S.T\" from having duplicate values for the index key.")
      2 "S" "T" (KeyLike.obj (some "email") none) "email"
      rfl (by rfl) (by rfl) rfl
  have hf : fields = [(some "email", JsVal.str "x@y.com")] := hwh _ (by rfl)
  subst hf
  subst herr
  subst hmsg
  exact heq

end Db2
